import Mathlib

/-!
Shallow embedding of `openid/idtokenvalidator.go` from the `openid2go` repository.

Go dynamic values (`interface\x7b\x7d`) are modelled by `GoValue`; a missing map key
reads as `Option.none` (Go's nil interface).  The external collaborators
(provider source, signing-key cache, PEM decoder, jwt parser) are modelled as
explicit parameters; collaborator invocations are recorded in an event trace so
that ordering and call-count claims can be stated.
-/

/-- A Go `interface\x7b\x7d` value as it can appear among the token's claims or
headers: a string, a `[]interface\x7b\x7d` slice, or some other value (carrying
its Go type name, as printed by `%T`, and a display form, as printed by `%+v`). -/
inductive GoValue where
  | str : String → GoValue
  | arr : List GoValue → GoValue
  | other : String → String → GoValue

/-- The Go type name printed by `fmt.Sprintf "%T"` for an optional dynamic value
(`none` is Go's nil interface, printed `<nil>`). -/
def goTypeName : Option GoValue → String
  | none => "<nil>"
  | some (GoValue.str _) => "string"
  | some (GoValue.arr _) => "[]interface \x7b\x7d"
  | some (GoValue.other t _) => t

/-- The display form printed by `fmt.Sprintf "%+v"` for a dynamic value. -/
def goFormatValue : GoValue → String
  | GoValue.str s => s
  | GoValue.arr l =>
      "[" ++ String.intercalate " " (l.attach.map fun v => goFormatValue v.1) ++ "]"
  | GoValue.other _ d => d
decreasing_by
  have := v.2
  simp only [GoValue.arr.sizeOf_spec]
  calc sizeOf v.1 < sizeOf l := List.sizeOf_lt_of_mem this
    _ < 1 + sizeOf l := by omega

/-- `%+v` of a `[]interface\x7b\x7d` slice. -/
def goFormatValueList (l : List GoValue) : String :=
  goFormatValue (GoValue.arr l)

/-- Reading a Go `map[string]interface\x7b\x7d`: the first binding for the key, or
nil (`none`) when the key is absent. -/
def mapGet (m : List (String × GoValue)) (k : String) : Option GoValue :=
  match m.find? (fun p => p.1 == k) with
  | some p => some p.2
  | none => none

def issuerClaimName : String := "iss"
def audiencesClaimName : String := "aud"
def subjectClaimName : String := "sub"
def keyIDJwtHeaderName : String := "kid"

/-- The parsed token structure (`*jwt.Token`) as read by the validator: its
claims map (`jwt.MapClaims`) and its header map. -/
structure JwtToken where
  claims : List (String × GoValue)
  header : List (String × GoValue)

/-- `getIssuer`: reads the `iss` claim. -/
def getIssuer (t : JwtToken) : Option GoValue :=
  mapGet t.claims issuerClaimName

/-- `getSubject`: reads the `sub` claim. -/
def getSubject (t : JwtToken) : Option GoValue :=
  mapGet t.claims subjectClaimName

/-- `getTokenKid`: the comma-ok string assertion `jt.Header["kid"].(string)`;
an absent or non-string header value yields the zero value `""`. -/
def getTokenKid (jt : JwtToken) : String :=
  match mapGet jt.header keyIDJwtHeaderName with
  | some (GoValue.str kid) => kid
  | _ => ""

/-- The `ValidationErrorCode` enumerants constructed in this file of the source. -/
inductive ValidationErrorCode where
  | invalidIssuerType
  | invalidIssuer
  | issuerNotFound
  | invalidAudienceType
  | invalidAudience
  | audienceNotFound
  | invalidSubjectType
  | invalidSubject
deriving DecidableEq

/-- `http.StatusUnauthorized`. -/
def StatusUnauthorized : Nat := 401

/-- The `ValidationError` struct. -/
structure ValidationError where
  Code : ValidationErrorCode
  Message : String
  HTTPStatus : Nat
deriving DecidableEq

/-- A registered `Provider`. -/
structure Provider where
  Issuer : String
  ClientIDs : List String
deriving DecidableEq

/-- `validateIssuer`: type-assert the `iss` claim to string (nil and non-string
values fail the assertion), reject the empty string, apply the hard-coded
google alias, and return the first provider whose `Issuer` equals the claim or
its aliased form. -/
def validateIssuer (jt : JwtToken) (ps : List Provider) : Except ValidationError Provider :=
  let issuerClaim := getIssuer jt
  match issuerClaim with
  | some (GoValue.str ti) =>
      if ti = "" then
        Except.error
          { Code := ValidationErrorCode.invalidIssuer
            Message := "The token \x27iss\x27 claim was not found or was empty."
            HTTPStatus := StatusUnauthorized }
      else
        -- Workaround for tokens issued by google
        let gi := if ti = "accounts.google.com" then "https://" ++ ti else ti
        match ps.find? (fun p => ti == p.Issuer || gi == p.Issuer) with
        | some p => Except.ok p
        | none =>
            Except.error
              { Code := ValidationErrorCode.issuerNotFound
                Message := "No provider was registered with issuer: " ++ ti
                HTTPStatus := StatusUnauthorized }
  | _ =>
      Except.error
        { Code := ValidationErrorCode.invalidIssuerType
          Message := "Invalid Issuer type: " ++ goTypeName issuerClaim
          HTTPStatus := StatusUnauthorized }

/-- `validateSubject`: type-assert the `sub` claim to string (nil and non-string
values fail the assertion) and reject the empty string; the validated string is
returned unchanged. -/
def validateSubject (jt : JwtToken) : Except ValidationError String :=
  let subjectClaim := getSubject jt
  match subjectClaim with
  | some (GoValue.str ts) =>
      if ts = "" then
        Except.error
          { Code := ValidationErrorCode.invalidSubject
            Message := "The token \x27sub\x27 claim was not found or was empty."
            HTTPStatus := StatusUnauthorized }
      else
        Except.ok ts
  | _ =>
      Except.error
        { Code := ValidationErrorCode.invalidSubjectType
          Message := "Invalid subject type: " ++ goTypeName subjectClaim
          HTTPStatus := StatusUnauthorized }

/-- `getAudiences`: a scalar string `aud` claim is normalised to a one-element
slice, a `[]interface\x7b\x7d` claim is returned as is, anything else (including
an absent claim, which reads as nil) is `InvalidAudienceType`. -/
def getAudiences (t : JwtToken) : Except ValidationError (List GoValue) :=
  let audiencesClaim := mapGet t.claims audiencesClaimName
  match audiencesClaim with
  | some (GoValue.str aud) => Except.ok [GoValue.str aud]
  | some (GoValue.arr l) => Except.ok l
  | _ =>
      Except.error
        { Code := ValidationErrorCode.invalidAudienceType
          Message := "Invalid Audiences type: " ++ goTypeName audiencesClaim
          HTTPStatus := StatusUnauthorized }

/-- The inner loop of `validateAudiences` for one configured client id `aud`:
scan the audience entries in claim order; the first non-string entry is
`InvalidAudienceType`, the first empty string is `InvalidAudience`, the first
entry equal to `aud` is a match; `none` when the scan completes. -/
def scanEntries (aud : String) : List GoValue → Option (Except ValidationError String)
  | [] => none
  | e :: rest =>
      match e with
      | GoValue.str ta =>
          if ta = "" then
            some (Except.error
              { Code := ValidationErrorCode.invalidAudience
                Message := "The token \x27aud\x27 claim was not found or was empty."
                HTTPStatus := StatusUnauthorized })
          else if ta = aud then
            some (Except.ok ta)
          else
            scanEntries aud rest
      | _ =>
          some (Except.error
            { Code := ValidationErrorCode.invalidAudienceType
              Message := "Invalid Audiences type: []interface \x7b\x7d"
              HTTPStatus := StatusUnauthorized })

/-- The outer loop of `validateAudiences`: client ids in configured order. -/
def scanClientIDs (entries : List GoValue) : List String → Option (Except ValidationError String)
  | [] => none
  | aud :: rest =>
      match scanEntries aud entries with
      | some r => some r
      | none => scanClientIDs entries rest

/-- `validateAudiences`: normalise the `aud` claim via `getAudiences`, then loop
over the provider's client ids and, inside, over the audience entries,
returning on the first error or exact match; `AudienceNotFound` when both loops
complete. -/
def validateAudiences (jt : JwtToken) (p : Provider) : Except ValidationError String :=
  match getAudiences jt with
  | Except.error e => Except.error e
  | Except.ok audiencesClaim =>
      match scanClientIDs audiencesClaim p.ClientIDs with
      | some r => r
      | none =>
          Except.error
            { Code := ValidationErrorCode.audienceNotFound
              Message := "The provider " ++ p.Issuer ++
                " does not have a client id matching any of the token audiences " ++
                goFormatValueList audiencesClaim
              HTTPStatus := StatusUnauthorized }

/-- Go `error` values flowing through the validator: the validator's own
`*ValidationError`, the parser's `*jwt.ValidationError` (an `Errors` bitmask
plus an optional `Inner` error), infrastructure failures from the external
collaborators, a setup error from provider-list validation, and the
domain-translated error produced on rejection. -/
inductive GoError where
  | validation : ValidationError → GoError
  | jwtValidation : Nat → Option GoError → GoError
  | infra : String → GoError
  | setup : String → GoError
  | translated : GoError → GoError

/-- `jwt.ValidationErrorSignatureInvalid` (bit 2 of the jwt-go `Errors` bitmask). -/
def jwtValidationErrorSignatureInvalid : Nat := 4

/-- The retry trigger test in `validate`: the error type-asserts to
`*jwt.ValidationError` and `verr.Errors & jwt.ValidationErrorSignatureInvalid != 0`. -/
def sigInvalidErr : GoError → Bool
  | GoError.jwtValidation flags _ => Nat.land flags jwtValidationErrorSignatureInvalid != 0
  | _ => false

/-- Modelled from the spec: `jwtErrorToOpenIDError` lives in errors.go, which is
not among the given sources.  Per the spec, any error surfacing into the
rejected state is translated into a domain-specific OpenID error before being
returned; the translation is modelled as a marking constructor preserving the
underlying error. -/
def jwtErrorToOpenIDError (e : GoError) : GoError := GoError.translated e

/-- Modelled from the spec: `providers.validate` lives in provider.go, which is
not among the given sources.  Per the spec, the core validates that the list is
non-empty and each provider is well-formed (non-empty issuer, at least one
client identifier) before use, failing otherwise. -/
def providersValidate (ps : List Provider) : Option GoError :=
  if ps.isEmpty then some (GoError.setup "no providers were registered")
  else
    match ps.find? (fun p => p.Issuer == "" || p.ClientIDs.isEmpty) with
    | some _ => some (GoError.setup "a registered provider was malformed")
    | none => none

/-- An `*rsa.PublicKey`. -/
structure RSAPublicKey where
  N : Nat
  E : Nat
deriving DecidableEq

/-- The result of a Go call that may also panic (an unchecked type assertion). -/
inductive Outcome (α : Type) where
  | ok : α → Outcome α
  | err : GoError → Outcome α
  | panicked : String → Outcome α

/-- Collaborator invocations recorded while the validator runs. -/
inductive Event where
  | parseAttempt
  | getProvidersCall
  | providersValidateCall
  | validateIssuerCall
  | validateAudiencesCall
  | validateSubjectCall
  | flushCall : String → Event
  | getKeyCall : String → String → Event
  | rsaParseCall
deriving DecidableEq

/-- A trace of collaborator invocations, in order. -/
def Trace : Type := List Event

/-- The `signingKeyGetter` collaborator, with an explicit cache state `σ`
threaded through its two operations (the `*http.Request` argument carries no
semantics for the core and is omitted). -/
structure signingKeyGetter (σ : Type) where
  getSigningKey : σ → String → String → Except GoError (List Nat) × σ
  flushCachedSigningKeys : σ → String → Option GoError × σ

/-- The `idTokenValidator` struct.  `provGetter` is the zero-argument
`GetProvidersFunc`, modelled by the result of one call; `rsaParser` is the
PEM-to-RSA-public-key decoder.  The `jwtParser` field is modelled separately by
the `ParserBehavior` arguments to `validate`. -/
structure idTokenValidator (σ : Type) where
  provGetter : Except GoError (List Provider)
  keyGetter : signingKeyGetter σ
  rsaParser : List Nat → Except GoError RSAPublicKey

/-- `idTokenValidator.getSigningKey`, the first-pass key callback: fetch the
provider list, validate it, validate issuer, audiences and subject in that
order (short-circuiting on the first error), then fetch and decode the signing
key.  Returns the result, the cache state, and the trace of invocations. -/
def idTokenValidator.getSigningKey {σ : Type} (tv : idTokenValidator σ) (st : σ)
    (jt : JwtToken) : Outcome RSAPublicKey × σ × List Event :=
  match tv.provGetter with
  | Except.error e => (Outcome.err e, st, [Event.getProvidersCall])
  | Except.ok provs =>
    match providersValidate provs with
    | some e => (Outcome.err e, st, [Event.getProvidersCall, Event.providersValidateCall])
    | none =>
      match validateIssuer jt provs with
      | Except.error e =>
          (Outcome.err (GoError.validation e), st,
            [Event.getProvidersCall, Event.providersValidateCall, Event.validateIssuerCall])
      | Except.ok p =>
        match validateAudiences jt p with
        | Except.error e =>
            (Outcome.err (GoError.validation e), st,
              [Event.getProvidersCall, Event.providersValidateCall, Event.validateIssuerCall,
                Event.validateAudiencesCall])
        | Except.ok _ =>
          match validateSubject jt with
          | Except.error e =>
              (Outcome.err (GoError.validation e), st,
                [Event.getProvidersCall, Event.providersValidateCall, Event.validateIssuerCall,
                  Event.validateAudiencesCall, Event.validateSubjectCall])
          | Except.ok _ =>
            let kid := getTokenKid jt
            match tv.keyGetter.getSigningKey st p.Issuer kid with
            | (Except.error e, st') =>
                (Outcome.err e, st',
                  [Event.getProvidersCall, Event.providersValidateCall, Event.validateIssuerCall,
                    Event.validateAudiencesCall, Event.validateSubjectCall,
                    Event.getKeyCall p.Issuer kid])
            | (Except.ok key, st') =>
                (match tv.rsaParser key with
                  | Except.ok k => Outcome.ok k
                  | Except.error e => Outcome.err e, st',
                  [Event.getProvidersCall, Event.providersValidateCall, Event.validateIssuerCall,
                    Event.validateAudiencesCall, Event.validateSubjectCall,
                    Event.getKeyCall p.Issuer kid, Event.rsaParseCall])

/-- `idTokenValidator.renewAndGetSigningKey`, the renewal key callback: the
issuer is re-extracted with the unchecked assertion
`jt.Claims.(jwt.MapClaims)["iss"].(string)` (panicking when the claim is not a
string), the cached keys for that issuer are flushed, and the key is re-fetched
and decoded; no claim validation is repeated. -/
def idTokenValidator.renewAndGetSigningKey {σ : Type} (tv : idTokenValidator σ) (st : σ)
    (jt : JwtToken) : Outcome RSAPublicKey × σ × List Event :=
  match mapGet jt.claims issuerClaimName with
  | some (GoValue.str iss) =>
    match tv.keyGetter.flushCachedSigningKeys st iss with
    | (some e, st') => (Outcome.err e, st', [Event.flushCall iss])
    | (none, st') =>
      let kid := getTokenKid jt
      match tv.keyGetter.getSigningKey st' iss kid with
      | (Except.error e, st'') =>
          (Outcome.err e, st'', [Event.flushCall iss, Event.getKeyCall iss kid])
      | (Except.ok key, st'') =>
          (match tv.rsaParser key with
            | Except.ok k => Outcome.ok k
            | Except.error e => Outcome.err e, st'',
            [Event.flushCall iss, Event.getKeyCall iss kid, Event.rsaParseCall])
  | _ => (Outcome.panicked "interface conversion: the iss claim is not a string", st, [])

/-- One attempt of the external jwt parser on the fixed token string: the token
structure it hands to the key callback, and its final result as a function of
what the callback returned (signature verification, time-claim checks and the
wrapping of callback errors all happen inside the external parser). -/
structure ParserBehavior where
  tok : JwtToken
  outcome : Except GoError RSAPublicKey → Except GoError JwtToken

/-- Lift the external parser's result into an `Outcome`. -/
def outcomeOfExcept {α : Type} : Except GoError α → Outcome α
  | Except.ok a => Outcome.ok a
  | Except.error e => Outcome.err e

/-- The result of one parse attempt as a function of what the key callback
returned: a callback panic unwinds, otherwise the external parser completes
according to its behaviour on the callback result. -/
def parserStep (pb : ParserBehavior) (r : Outcome RSAPublicKey) : Outcome JwtToken :=
  match r with
  | Outcome.panicked m => Outcome.panicked m
  | Outcome.ok k => outcomeOfExcept (pb.outcome (Except.ok k))
  | Outcome.err e => outcomeOfExcept (pb.outcome (Except.error e))

/-- Run one parse attempt: the parser invokes the key callback exactly once and
then completes according to its behaviour; a panic in the callback unwinds
through the parser. -/
def runParse {σ : Type} (pb : ParserBehavior)
    (cb : σ → JwtToken → Outcome RSAPublicKey × σ × List Event) (st : σ) :
    Outcome JwtToken × σ × List Event :=
  match cb st pb.tok with
  | (Outcome.panicked m, st', tr) => (Outcome.panicked m, st', Event.parseAttempt :: tr)
  | (Outcome.ok k, st', tr) =>
      (outcomeOfExcept (pb.outcome (Except.ok k)), st', Event.parseAttempt :: tr)
  | (Outcome.err e, st', tr) =>
      (outcomeOfExcept (pb.outcome (Except.error e)), st', Event.parseAttempt :: tr)

/-- `idTokenValidator.validate`: parse with the first-pass callback; when the
error type-asserts to `*jwt.ValidationError` and carries the
signature-invalid bit, parse once more with the renewal callback; any error
still standing is translated by `jwtErrorToOpenIDError`.  `pb1` and `pb2` are
the external parser's behaviours on the two attempts. -/
def idTokenValidator.validate {σ : Type} (tv : idTokenValidator σ)
    (pb1 pb2 : ParserBehavior) (st : σ) : Outcome JwtToken × σ × List Event :=
  match runParse pb1 tv.getSigningKey st with
  | (Outcome.ok jt, st1, tr1) => (Outcome.ok jt, st1, tr1)
  | (Outcome.panicked m, st1, tr1) => (Outcome.panicked m, st1, tr1)
  | (Outcome.err e, st1, tr1) =>
    if sigInvalidErr e then
      match runParse pb2 tv.renewAndGetSigningKey st1 with
      | (Outcome.ok jt, st2, tr2) => (Outcome.ok jt, st2, tr1 ++ tr2)
      | (Outcome.panicked m, st2, tr2) => (Outcome.panicked m, st2, tr1 ++ tr2)
      | (Outcome.err e2, st2, tr2) =>
          (Outcome.err (jwtErrorToOpenIDError e2), st2, tr1 ++ tr2)
    else
      (Outcome.err (jwtErrorToOpenIDError e), st1, tr1)

/-- Number of parse attempts recorded in a trace. -/
def parseCount : List Event → Nat
  | [] => 0
  | Event.parseAttempt :: tr => parseCount tr + 1
  | _ :: tr => parseCount tr

/-- Number of cache flushes recorded in a trace. -/
def flushCount : List Event → Nat
  | [] => 0
  | Event.flushCall _ :: tr => flushCount tr + 1
  | _ :: tr => flushCount tr

/-- Number of key fetches recorded in a trace. -/
def getKeyCount : List Event → Nat
  | [] => 0
  | Event.getKeyCall _ _ :: tr => getKeyCount tr + 1
  | _ :: tr => getKeyCount tr

/-- Whether a trace records any claim-validation work (provider fetch and
validation, issuer, audience or subject matching). -/
def hasClaimValidationEvent : List Event → Bool
  | [] => false
  | Event.getProvidersCall :: _ => true
  | Event.providersValidateCall :: _ => true
  | Event.validateIssuerCall :: _ => true
  | Event.validateAudiencesCall :: _ => true
  | Event.validateSubjectCall :: _ => true
  | _ :: tr => hasClaimValidationEvent tr

/-- The possible traces of the renewal callback for issuer `iss` and key id
`kid`: one flush, then at most one key fetch, then at most one decode. -/
def renewalTraceShape (iss kid : String) (tr : List Event) : Prop :=
  tr = [Event.flushCall iss] ∨
  tr = [Event.flushCall iss, Event.getKeyCall iss kid] ∨
  tr = [Event.flushCall iss, Event.getKeyCall iss kid, Event.rsaParseCall]

/-- The issuer-matching rule as the spec words it: verbatim comparison, plus
the prefixed form when the claim is exactly `accounts.google.com`. -/
def issuerMatches (ti : String) (p : Provider) : Bool :=
  ti == p.Issuer || (ti == "accounts.google.com" && "https://accounts.google.com" == p.Issuer)

/-- The error code carried by a failed validation result, if any. -/
def exceptErrCode {α : Type} : Except ValidationError α → Option ValidationErrorCode
  | Except.error e => some e.Code
  | Except.ok _ => none

/-- A well-formed registered provider used by concrete instances below. -/
def provW : Provider :=
  { Issuer := "https://idp.example", ClientIDs := ["client-1"] }

/-- A token whose claims all validate against `provW`. -/
def tokW : JwtToken :=
  { claims :=
      [(issuerClaimName, GoValue.str "https://idp.example"),
        (audiencesClaimName, GoValue.str "client-1"),
        (subjectClaimName, GoValue.str "user-42")]
    header := [(keyIDJwtHeaderName, GoValue.str "key-1")] }

/-- A stateless signing-key getter that always succeeds. -/
def kgW : signingKeyGetter Unit :=
  { getSigningKey := fun s _ _ => (Except.ok [1, 2, 3], s)
    flushCachedSigningKeys := fun s _ => (none, s) }

/-- A validator whose collaborators all succeed. -/
def tvW : idTokenValidator Unit :=
  { provGetter := Except.ok [provW]
    keyGetter := kgW
    rsaParser := fun _ => Except.ok { N := 91, E := 65537 } }

/-- A validator whose provider source fails. -/
def tvErrProv : idTokenValidator Unit :=
  { provGetter := Except.error (GoError.infra "provider source unavailable")
    keyGetter := kgW
    rsaParser := fun _ => Except.ok { N := 91, E := 65537 } }

/-- A parser attempt that reports a signature-invalid validation error whenever
the key callback succeeds, and wraps callback errors with the unverifiable bit. -/
def pbSigFail : ParserBehavior :=
  { tok := tokW
    outcome := fun r =>
      match r with
      | Except.ok _ =>
          Except.error (GoError.jwtValidation jwtValidationErrorSignatureInvalid none)
      | Except.error e => Except.error (GoError.jwtValidation 2 (some e)) }

/-- A parser attempt that accepts whenever the key callback succeeds, and wraps
callback errors with the unverifiable bit. -/
def pbRenewOk : ParserBehavior :=
  { tok := tokW
    outcome := fun r =>
      match r with
      | Except.ok _ => Except.ok tokW
      | Except.error e => Except.error (GoError.jwtValidation 2 (some e)) }

/-- `find?` returns `some a` exactly when the list splits around `a` with no
earlier element satisfying the predicate: the first match wins. -/
theorem find?_first_match {α : Type} (p : α → Bool) (l : List α) (a : α) :
    l.find? p = some a ↔
      p a = true ∧ ∃ l1 l2, l = l1 ++ a :: l2 ∧ ∀ x ∈ l1, p x = false := by
  induction l with
  | nil => simp
  | cons b t ih =>
    simp only [List.find?]
    cases hb : p b
    · simp only [ih]
      constructor
      · rintro ⟨hpa, l1, l2, rfl, hall⟩
        refine ⟨hpa, b :: l1, l2, rfl, ?_⟩
        intro x hx
        rcases List.mem_cons.mp hx with rfl | hx
        · exact hb
        · exact hall x hx
      · rintro ⟨hpa, l1, l2, heq, hall⟩
        cases l1 with
        | nil =>
          injection heq with h1 h2
          subst h1
          rw [hpa] at hb
          cases hb
        | cons c l1' =>
          injection heq with h1 h2
          subst h1
          exact ⟨hpa, l1', l2, h2, fun x hx => hall x (List.mem_cons_of_mem _ hx)⟩
    · constructor
      · intro h
        injection h with h
        subst h
        exact ⟨hb, [], t, rfl, by simp⟩
      · rintro ⟨hpa, l1, l2, heq, hall⟩
        cases l1 with
        | nil =>
          injection heq with h1 h2
          subst h1
          rfl
        | cons c l1' =>
          injection heq with h1 h2
          subst h1
          rw [hall b (by simp)] at hb
          cases hb

/-- The loop predicate of `validateIssuer` coincides with the spec's matching
rule `issuerMatches`. -/
theorem issuer_pred_eq (ti : String) (p : Provider) :
    (ti == p.Issuer ||
      (if ti = "accounts.google.com" then "https://" ++ ti else ti) == p.Issuer)
      = issuerMatches ti p := by
  by_cases h : ti = "accounts.google.com"
  · subst h
    have hpre : ("https://" ++ "accounts.google.com" : String) = "https://accounts.google.com" := rfl
    simp [issuerMatches, hpre]
  · have hb : (ti == "accounts.google.com") = false := by
      simp [h]
    simp [issuerMatches, h, hb]

/-- For a non-empty string issuer claim, `validateIssuer` is the first-match
search over the registry with the `issuerMatches` rule. -/
theorem validateIssuer_eq_find (jt : JwtToken) (ps : List Provider) (ti : String)
    (hclaim : getIssuer jt = some (GoValue.str ti)) (hne : ti ≠ "") :
    validateIssuer jt ps =
      (match ps.find? (issuerMatches ti) with
        | some p => Except.ok p
        | none =>
            Except.error
              { Code := ValidationErrorCode.issuerNotFound
                Message := "No provider was registered with issuer: " ++ ti
                HTTPStatus := StatusUnauthorized }) := by
  have hpred : (fun p => ti == p.Issuer ||
      (if ti = "accounts.google.com" then "https://" ++ ti else ti) == p.Issuer)
      = issuerMatches ti := funext fun p => issuer_pred_eq ti p
  simp only [validateIssuer, hclaim, if_neg hne, hpred]

/-- Claim C3: for a non-empty string issuer claim, issuer matching compares the
claim verbatim against each provider's `Issuer` and, exactly when the claim is
the literal `accounts.google.com`, also compares `https://accounts.google.com`;
the first provider in registry order matching either form is the result, and no
aliasing applies to any other issuer string (in particular a claim of
`https://accounts.google.com` does not match a provider registered as
`accounts.google.com`). -/
theorem validateIssuer_first_match_spec (jt : JwtToken) (ps : List Provider) (ti : String)
    (hclaim : getIssuer jt = some (GoValue.str ti)) (hne : ti ≠ "") :
    (∀ p, validateIssuer jt ps = Except.ok p ↔
        (issuerMatches ti p = true ∧
          ∃ l1 l2, ps = l1 ++ p :: l2 ∧ ∀ q ∈ l1, issuerMatches ti q = false)) ∧
    (∀ p, issuerMatches ti p =
        (ti == p.Issuer ||
          (ti == "accounts.google.com" && "https://accounts.google.com" == p.Issuer))) ∧
    (∀ p : Provider, p.Issuer = "accounts.google.com" →
        issuerMatches "https://accounts.google.com" p = false) := by
  refine ⟨?_, fun p => rfl, ?_⟩
  · intro p
    rw [validateIssuer_eq_find jt ps ti hclaim hne]
    cases hf : ps.find? (issuerMatches ti) with
    | none =>
      simp only [hf]
      constructor
      · intro h
        simp at h
      · rintro ⟨hm, l1, l2, rfl, hall⟩
        have : (l1 ++ p :: l2).find? (issuerMatches ti) = some p :=
          (find?_first_match _ _ _).mpr ⟨hm, l1, l2, rfl, hall⟩
        rw [hf] at this
        cases this
    | some q =>
      simp only [hf]
      constructor
      · intro h
        injection h with h
        subst h
        exact (find?_first_match _ _ _).mp hf
      · intro h
        have := (find?_first_match (issuerMatches ti) ps p).mpr h
        rw [hf] at this
        injection this with h'
        rw [h']
  · intro p h
    unfold issuerMatches
    rw [h]
    decide

/-- Claim C3 witness: the scenario token and provider match on the first (and
only) registry entry. -/
theorem validateIssuer_first_match_spec_witness :
    validateIssuer tokW [provW] = Except.ok provW :=
  ((validateIssuer_first_match_spec tokW [provW] "https://idp.example" rfl
      (by decide)).1 provW).mpr ⟨rfl, [], [], rfl, by simp⟩

/-- Claim C4 counterexample: on a token with no issuer claim at all, the claim
reads as Go's nil interface, the string type assertion fails, and the code
returns `InvalidIssuerType` — not `InvalidIssuer` as the claim requires for a
missing claim. -/
theorem validateIssuer_missing_claim_counterexample :
    exceptErrCode (validateIssuer { claims := [], header := [] } []) =
        some ValidationErrorCode.invalidIssuerType ∧
      ValidationErrorCode.invalidIssuerType ≠ ValidationErrorCode.invalidIssuer :=
  ⟨rfl, by decide⟩

/-- Claim C4 (amended): issuer validation returns `InvalidIssuerType` exactly
when the issuer claim is not a string (present with a non-string value, or
missing — a missing claim reads as nil and fails the string assertion);
`InvalidIssuer` exactly when the claim is the empty string; and
`IssuerNotFound` exactly when the claim is a non-empty string matching no
registered provider. -/
theorem validateIssuer_error_code_spec (jt : JwtToken) (ps : List Provider) :
    (exceptErrCode (validateIssuer jt ps) = some ValidationErrorCode.invalidIssuerType ↔
        ∀ s, getIssuer jt ≠ some (GoValue.str s)) ∧
    (exceptErrCode (validateIssuer jt ps) = some ValidationErrorCode.invalidIssuer ↔
        getIssuer jt = some (GoValue.str "")) ∧
    (exceptErrCode (validateIssuer jt ps) = some ValidationErrorCode.issuerNotFound ↔
        ∃ s, getIssuer jt = some (GoValue.str s) ∧ s ≠ "" ∧
          ∀ p ∈ ps, issuerMatches s p = false) := by
  cases hg : getIssuer jt with
  | none =>
    have hv : validateIssuer jt ps =
        Except.error
          { Code := ValidationErrorCode.invalidIssuerType
            Message := "Invalid Issuer type: " ++ goTypeName none
            HTTPStatus := StatusUnauthorized } := by
      simp only [validateIssuer, hg]
    refine ⟨?_, ?_, ?_⟩ <;> simp [hv, exceptErrCode, hg]
  | some v =>
    cases v with
    | str ti =>
      by_cases hti : ti = ""
      · subst hti
        have hv : validateIssuer jt ps =
            Except.error
              { Code := ValidationErrorCode.invalidIssuer
                Message := "The token \x27iss\x27 claim was not found or was empty."
                HTTPStatus := StatusUnauthorized } := by
          simp [validateIssuer, hg]
        refine ⟨?_, ?_, ?_⟩
        · constructor
          · intro h
            rw [hv] at h
            simp [exceptErrCode] at h
          · intro h
            exact absurd rfl (h "")
        · simp [hv, exceptErrCode, hg]
        · constructor
          · intro h
            rw [hv] at h
            simp [exceptErrCode] at h
          · rintro ⟨s, hs, hsne, -⟩
            injection hs with hs
            injection hs with hs
            exact absurd hs.symm hsne
      · have hvfind := validateIssuer_eq_find jt ps ti hg hti
        cases hf : ps.find? (issuerMatches ti) with
        | some p =>
          have hv : validateIssuer jt ps = Except.ok p := by
            rw [hvfind, hf]
          refine ⟨?_, ?_, ?_⟩
          · constructor
            · intro h
              rw [hv] at h
              simp [exceptErrCode] at h
            · intro h
              exact absurd rfl (h ti)
          · constructor
            · intro h
              rw [hv] at h
              simp [exceptErrCode] at h
            · intro h
              injection h with h
              injection h with h
              exact absurd h hti
          · constructor
            · intro h
              rw [hv] at h
              simp [exceptErrCode] at h
            · rintro ⟨s, hs, hsne, hall⟩
              injection hs with hs
              injection hs with hs
              subst hs
              have hmem := List.mem_of_find?_eq_some hf
              have hmatch := List.find?_some hf
              rw [hall p hmem] at hmatch
              cases hmatch
        | none =>
          have hv : validateIssuer jt ps =
              Except.error
                { Code := ValidationErrorCode.issuerNotFound
                  Message := "No provider was registered with issuer: " ++ ti
                  HTTPStatus := StatusUnauthorized } := by
            rw [hvfind, hf]
          refine ⟨?_, ?_, ?_⟩
          · constructor
            · intro h
              rw [hv] at h
              simp [exceptErrCode] at h
            · intro h
              exact absurd rfl (h ti)
          · constructor
            · intro h
              rw [hv] at h
              simp [exceptErrCode] at h
            · intro h
              injection h with h
              injection h with h
              exact absurd h hti
          · constructor
            · intro _
              refine ⟨ti, rfl, hti, ?_⟩
              intro p hp
              exact Bool.eq_false_iff.mpr (List.find?_eq_none.mp hf p hp)
            · intro _
              rw [hv]
              rfl
    | arr l =>
      have hv : validateIssuer jt ps =
          Except.error
            { Code := ValidationErrorCode.invalidIssuerType
              Message := "Invalid Issuer type: " ++ goTypeName (some (GoValue.arr l))
              HTTPStatus := StatusUnauthorized } := by
        simp only [validateIssuer, hg]
      refine ⟨?_, ?_, ?_⟩ <;> simp [hv, exceptErrCode, hg]
    | other t d =>
      have hv : validateIssuer jt ps =
          Except.error
            { Code := ValidationErrorCode.invalidIssuerType
              Message := "Invalid Issuer type: " ++ goTypeName (some (GoValue.other t d))
              HTTPStatus := StatusUnauthorized } := by
        simp only [validateIssuer, hg]
      refine ⟨?_, ?_, ?_⟩ <;> simp [hv, exceptErrCode, hg]

/-- Claim C7 counterexample: on a token with no subject claim at all, the claim
reads as Go's nil interface, the string type assertion fails, and the code
returns `InvalidSubjectType` — not `InvalidSubject` as the claim requires for a
missing claim. -/
theorem validateSubject_missing_claim_counterexample :
    exceptErrCode (validateSubject { claims := [], header := [] }) =
        some ValidationErrorCode.invalidSubjectType ∧
      ValidationErrorCode.invalidSubjectType ≠ ValidationErrorCode.invalidSubject :=
  ⟨rfl, by decide⟩

/-- Claim C7 (amended): subject validation returns `InvalidSubjectType` exactly
when the subject claim is not a string (present with a non-string value, or
missing — a missing claim reads as nil and fails the string assertion);
`InvalidSubject` exactly when the claim is the empty string; on success it
returns the subject string unchanged and performs no further checks. -/
theorem validateSubject_spec (jt : JwtToken) :
    (exceptErrCode (validateSubject jt) = some ValidationErrorCode.invalidSubjectType ↔
        ∀ s, getSubject jt ≠ some (GoValue.str s)) ∧
    (exceptErrCode (validateSubject jt) = some ValidationErrorCode.invalidSubject ↔
        getSubject jt = some (GoValue.str "")) ∧
    (∀ s, validateSubject jt = Except.ok s ↔
        (getSubject jt = some (GoValue.str s) ∧ s ≠ "")) := by
  cases hg : getSubject jt with
  | none =>
    have hv : validateSubject jt =
        Except.error
          { Code := ValidationErrorCode.invalidSubjectType
            Message := "Invalid subject type: " ++ goTypeName none
            HTTPStatus := StatusUnauthorized } := by
      simp only [validateSubject, hg]
    refine ⟨?_, ?_, ?_⟩ <;> simp [hv, exceptErrCode, hg]
  | some v =>
    cases v with
    | str ts =>
      by_cases hts : ts = ""
      · subst hts
        have hv : validateSubject jt =
            Except.error
              { Code := ValidationErrorCode.invalidSubject
                Message := "The token \x27sub\x27 claim was not found or was empty."
                HTTPStatus := StatusUnauthorized } := by
          simp [validateSubject, hg]
        refine ⟨?_, ?_, ?_⟩
        · constructor
          · intro h
            rw [hv] at h
            simp [exceptErrCode] at h
          · intro h
            exact absurd rfl (h "")
        · simp [hv, exceptErrCode, hg]
        · intro s
          constructor
          · intro h
            rw [hv] at h
            cases h
          · rintro ⟨hs, hsne⟩
            injection hs with hs
            injection hs with hs
            exact absurd hs.symm hsne
      · have hv : validateSubject jt = Except.ok ts := by
          simp [validateSubject, hg, hts]
        refine ⟨?_, ?_, ?_⟩
        · constructor
          · intro h
            rw [hv] at h
            simp [exceptErrCode] at h
          · intro h
            exact absurd rfl (h ts)
        · constructor
          · intro h
            rw [hv] at h
            simp [exceptErrCode] at h
          · intro h
            injection h with h
            injection h with h
            exact absurd h hts
        · intro s
          rw [hv]
          constructor
          · intro h
            injection h with h
            subst h
            exact ⟨rfl, hts⟩
          · rintro ⟨hs, -⟩
            injection hs with hs
            injection hs with hs
            rw [hs]
    | arr l =>
      have hv : validateSubject jt =
          Except.error
            { Code := ValidationErrorCode.invalidSubjectType
              Message := "Invalid subject type: " ++ goTypeName (some (GoValue.arr l))
              HTTPStatus := StatusUnauthorized } := by
        simp only [validateSubject, hg]
      refine ⟨?_, ?_, ?_⟩ <;> simp [hv, exceptErrCode, hg]
    | other t d =>
      have hv : validateSubject jt =
          Except.error
            { Code := ValidationErrorCode.invalidSubjectType
              Message := "Invalid subject type: " ++ goTypeName (some (GoValue.other t d))
              HTTPStatus := StatusUnauthorized } := by
        simp only [validateSubject, hg]
      refine ⟨?_, ?_, ?_⟩ <;> simp [hv, exceptErrCode, hg]

/-- Exhaustive description of one inner audience scan: a clean pass means every
entry is a non-empty, non-matching string; a match returns the client id
itself; an error exhibits an offending entry, with HTTP status 401. -/
theorem scanEntries_cases (aud : String) (es : List GoValue) :
    (scanEntries aud es = none →
      ∀ x ∈ es, ∃ s, x = GoValue.str s ∧ s ≠ "" ∧ s ≠ aud) ∧
    (∀ s, scanEntries aud es = some (Except.ok s) →
      s = aud ∧ s ≠ "" ∧ GoValue.str s ∈ es) ∧
    (∀ e, scanEntries aud es = some (Except.error e) →
      e.HTTPStatus = StatusUnauthorized ∧
        ((e.Code = ValidationErrorCode.invalidAudienceType ∧
            ∃ x ∈ es, ∀ s, x ≠ GoValue.str s) ∨
          (e.Code = ValidationErrorCode.invalidAudience ∧ GoValue.str "" ∈ es))) := by
  induction es with
  | nil =>
    refine ⟨?_, ?_, ?_⟩
    · intro _ x hx
      cases hx
    · intro s h
      cases h
    · intro e h
      cases h
  | cons x rest ih =>
    refine ⟨?_, ?_, ?_⟩
    · intro h y hy
      cases x with
      | str ta =>
        by_cases h0 : ta = ""
        · subst h0
          simp [scanEntries] at h
        · by_cases h1 : ta = aud
          · subst h1
            simp [scanEntries, h0] at h
          · simp only [scanEntries, if_neg h0, if_neg h1] at h
            rcases List.mem_cons.mp hy with rfl | hy
            · exact ⟨ta, rfl, h0, h1⟩
            · exact ih.1 h y hy
      | arr l =>
        simp [scanEntries] at h
      | other t d =>
        simp [scanEntries] at h
    · intro s h
      cases x with
      | str ta =>
        by_cases h0 : ta = ""
        · subst h0
          simp [scanEntries] at h
        · by_cases h1 : ta = aud
          · subst h1
            simp only [scanEntries, if_neg h0, if_pos rfl] at h
            injection h with h
            injection h with h
            subst h
            exact ⟨rfl, h0, List.mem_cons_self _ _⟩
          · simp only [scanEntries, if_neg h0, if_neg h1] at h
            obtain ⟨hs1, hs2, hs3⟩ := ih.2.1 s h
            exact ⟨hs1, hs2, List.mem_cons_of_mem _ hs3⟩
      | arr l =>
        simp only [scanEntries] at h
        injection h with h
        cases h
      | other t d =>
        simp only [scanEntries] at h
        injection h with h
        cases h
    · intro e h
      cases x with
      | str ta =>
        by_cases h0 : ta = ""
        · subst h0
          simp only [scanEntries, if_pos rfl] at h
          injection h with h
          injection h with h
          subst h
          exact ⟨rfl, Or.inr ⟨rfl, List.mem_cons_self _ _⟩⟩
        · by_cases h1 : ta = aud
          · subst h1
            simp only [scanEntries, if_neg h0, if_pos rfl] at h
            injection h with h
            cases h
          · simp only [scanEntries, if_neg h0, if_neg h1] at h
            obtain ⟨hs1, hs2⟩ := ih.2.2 e h
            refine ⟨hs1, ?_⟩
            rcases hs2 with ⟨hc, y, hy, hne⟩ | ⟨hc, hm⟩
            · exact Or.inl ⟨hc, y, List.mem_cons_of_mem _ hy, hne⟩
            · exact Or.inr ⟨hc, List.mem_cons_of_mem _ hm⟩
      | arr l =>
        simp only [scanEntries] at h
        injection h with h
        injection h with h
        subst h
        exact ⟨rfl, Or.inl ⟨rfl, GoValue.arr l, List.mem_cons_self _ _, fun s h => by cases h⟩⟩
      | other t d =>
        simp only [scanEntries] at h
        injection h with h
        injection h with h
        subst h
        exact ⟨rfl, Or.inl ⟨rfl, GoValue.other t d, List.mem_cons_self _ _, fun s h => by cases h⟩⟩

/-- When every entry is a non-empty string, one inner scan reduces to list
membership of the client id among the entries. -/
theorem scanEntries_clean (aud : String) (es : List GoValue)
    (hclean : ∀ x ∈ es, ∃ s, x = GoValue.str s ∧ s ≠ "") :
    (GoValue.str aud ∈ es → scanEntries aud es = some (Except.ok aud)) ∧
    (GoValue.str aud ∉ es → scanEntries aud es = none) := by
  induction es with
  | nil => exact ⟨fun h => absurd h (List.not_mem_nil _), fun _ => rfl⟩
  | cons x rest ih =>
    obtain ⟨s, rfl, hs⟩ := hclean x (List.mem_cons_self _ _)
    have ihc := ih (fun y hy => hclean y (List.mem_cons_of_mem _ hy))
    constructor
    · intro hmem
      by_cases h1 : s = aud
      · subst h1
        simp [scanEntries, hs]
      · have hmem' : GoValue.str aud ∈ rest := by
          rcases List.mem_cons.mp hmem with heq | h
          · injection heq with heq
            exact absurd heq.symm h1
          · exact h
        simp only [scanEntries, if_neg hs, if_neg h1, ihc.1 hmem']
    · intro hmem
      have h1 : s ≠ aud := by
        intro h
        subst h
        exact hmem (List.mem_cons_self _ _)
      have h2 : GoValue.str aud ∉ rest := fun h => hmem (List.mem_cons_of_mem _ h)
      simp only [scanEntries, if_neg hs, if_neg h1, ihc.2 h2]

/-- The outer loop completes without a result exactly when every inner scan
completes without a result. -/
theorem scanClientIDs_none_iff (es : List GoValue) (cids : List String) :
    scanClientIDs es cids = none ↔ ∀ c ∈ cids, scanEntries c es = none := by
  induction cids with
  | nil => simp [scanClientIDs]
  | cons c rest ih =>
    cases hh : scanEntries c es with
    | some r =>
      constructor
      · intro h
        simp only [scanClientIDs, hh] at h
        cases h
      · intro h
        have := h c (List.mem_cons_self _ _)
        rw [hh] at this
        cases this
    | none =>
      simp only [scanClientIDs, hh]
      rw [ih]
      constructor
      · intro h c' hc'
        rcases List.mem_cons.mp hc' with rfl | hc'
        · exact hh
        · exact h c' hc'
      · intro h c' hc'
        exact h c' (List.mem_cons_of_mem _ hc')

/-- Any outer-loop result was produced by the inner scan of some configured
client id. -/
theorem scanClientIDs_some_mem (es : List GoValue) (cids : List String)
    (r : Except ValidationError String) :
    scanClientIDs es cids = some r → ∃ c ∈ cids, scanEntries c es = some r := by
  induction cids with
  | nil => intro h; cases h
  | cons c rest ih =>
    intro h
    cases hh : scanEntries c es with
    | some r' =>
      simp only [scanClientIDs, hh] at h
      injection h with h
      subst h
      exact ⟨c, List.mem_cons_self _ _, hh⟩
    | none =>
      simp only [scanClientIDs, hh] at h
      obtain ⟨c', hc', hr⟩ := ih h
      exact ⟨c', List.mem_cons_of_mem _ hc', hr⟩

/-- When every entry is a non-empty string the outer loop succeeds exactly on
the first configured client id present among the entries. -/
theorem scanClientIDs_clean_ok (es : List GoValue)
    (hclean : ∀ x ∈ es, ∃ s, x = GoValue.str s ∧ s ≠ "") (cids : List String) (s : String) :
    scanClientIDs es cids = some (Except.ok s) ↔
      (GoValue.str s ∈ es ∧
        ∃ l1 l2, cids = l1 ++ s :: l2 ∧ ∀ c ∈ l1, GoValue.str c ∉ es) := by
  induction cids with
  | nil =>
    constructor
    · intro h
      cases h
    · rintro ⟨-, l1, l2, heq, -⟩
      cases l1 <;> simp at heq
  | cons c rest ih =>
    by_cases hc : GoValue.str c ∈ es
    · have hsc := (scanEntries_clean c es hclean).1 hc
      simp only [scanClientIDs, hsc]
      constructor
      · intro h
        injection h with h
        injection h with h
        subst h
        exact ⟨hc, [], rest, rfl, by simp⟩
      · rintro ⟨hmem, l1, l2, heq, hall⟩
        cases l1 with
        | nil =>
          injection heq with h1 h2
          subst h1
          rfl
        | cons c' l1' =>
          injection heq with h1 h2
          subst h1
          exact absurd hc (hall c (List.mem_cons_self _ _))
    · have hsc := (scanEntries_clean c es hclean).2 hc
      simp only [scanClientIDs, hsc]
      rw [ih]
      constructor
      · rintro ⟨hmem, l1, l2, rfl, hall⟩
        refine ⟨hmem, c :: l1, l2, rfl, ?_⟩
        intro x hx
        rcases List.mem_cons.mp hx with rfl | hx
        · exact hc
        · exact hall x hx
      · rintro ⟨hmem, l1, l2, heq, hall⟩
        cases l1 with
        | nil =>
          injection heq with h1 h2
          subst h1
          exact absurd hmem hc
        | cons c' l1' =>
          injection heq with h1 h2
          subst h1
          exact ⟨hmem, l1', l2, h2, fun x hx => hall x (List.mem_cons_of_mem _ hx)⟩

/-- Every error `getAudiences` constructs carries `InvalidAudienceType`. -/
theorem getAudiences_error_code (t : JwtToken) (e : ValidationError)
    (h : getAudiences t = Except.error e) :
    e.Code = ValidationErrorCode.invalidAudienceType ∧
      e.HTTPStatus = StatusUnauthorized := by
  simp only [getAudiences] at h
  cases hm : mapGet t.claims audiencesClaimName with
  | none =>
    rw [hm] at h
    injection h with h
    subst h
    exact ⟨rfl, rfl⟩
  | some v =>
    cases v with
    | str s =>
      rw [hm] at h
      cases h
    | arr l =>
      rw [hm] at h
      cases h
    | other t' d =>
      rw [hm] at h
      injection h with h
      subst h
      exact ⟨rfl, rfl⟩

/-- `validateAudiences` passes a `getAudiences` failure through unchanged. -/
theorem validateAudiences_unfold_err (jt : JwtToken) (p : Provider) (e : ValidationError)
    (hga : getAudiences jt = Except.error e) :
    validateAudiences jt p = Except.error e := by
  unfold validateAudiences
  rw [hga]

/-- `validateAudiences` on successfully normalised entries is the outer scan,
with `AudienceNotFound` when the scan completes. -/
theorem validateAudiences_unfold_ok (jt : JwtToken) (p : Provider) (es : List GoValue)
    (hga : getAudiences jt = Except.ok es) :
    validateAudiences jt p =
      (match scanClientIDs es p.ClientIDs with
        | some r => r
        | none =>
            Except.error
              { Code := ValidationErrorCode.audienceNotFound
                Message := "The provider " ++ p.Issuer ++
                  " does not have a client id matching any of the token audiences " ++
                  goFormatValueList es
                HTTPStatus := StatusUnauthorized }) := by
  unfold validateAudiences
  rw [hga]

/-- Inversion for a successful audience validation: the matched value is a
non-empty configured client id occurring among the normalised entries. -/
theorem validateAudiences_ok_inv (jt : JwtToken) (p : Provider) (s : String)
    (h : validateAudiences jt p = Except.ok s) :
    s ≠ "" ∧ s ∈ p.ClientIDs ∧
      ∃ es, getAudiences jt = Except.ok es ∧ GoValue.str s ∈ es := by
  cases hga : getAudiences jt with
  | error e =>
    rw [validateAudiences_unfold_err jt p e hga] at h
    cases h
  | ok es =>
    rw [validateAudiences_unfold_ok jt p es hga] at h
    cases hsc : scanClientIDs es p.ClientIDs with
    | none =>
      rw [hsc] at h
      simp at h
    | some r =>
      rw [hsc] at h
      have h' : r = Except.ok s := h
      subst h'
      obtain ⟨c, hcmem, hse⟩ := scanClientIDs_some_mem es p.ClientIDs _ hsc
      obtain ⟨h1, h2, h3⟩ := (scanEntries_cases c es).2.1 s hse
      subst h1
      exact ⟨h2, hcmem, es, rfl, h3⟩

/-- Claim C5: audience matching iterates the configured client identifiers in
order and, for each, scans the audience entries in claim order, returning on
the first exact equality; with client IDs [A, B] and token audiences [B, A]
the match is found via client id A; when every entry is a non-empty string the
first configured client id with any matching entry wins; a successful match
always returns a non-empty string equal to one configured client id. -/
theorem validateAudiences_order_spec (jt : JwtToken) (p : Provider) :
    (∀ s, validateAudiences jt p = Except.ok s →
        s ≠ "" ∧ s ∈ p.ClientIDs ∧
          ∃ es, getAudiences jt = Except.ok es ∧ GoValue.str s ∈ es) ∧
    (∀ A B, A ≠ "" → B ≠ "" →
        p.ClientIDs = [A, B] →
        getAudiences jt = Except.ok [GoValue.str B, GoValue.str A] →
        validateAudiences jt p = Except.ok A) ∧
    (∀ es, getAudiences jt = Except.ok es →
        (∀ x ∈ es, ∃ s, x = GoValue.str s ∧ s ≠ "") →
        ∀ s, validateAudiences jt p = Except.ok s ↔
          (GoValue.str s ∈ es ∧
            ∃ l1 l2, p.ClientIDs = l1 ++ s :: l2 ∧ ∀ c ∈ l1, GoValue.str c ∉ es)) := by
  refine ⟨fun s h => validateAudiences_ok_inv jt p s h, ?_, ?_⟩
  · intro A B hA hB hcids hga
    rw [validateAudiences_unfold_ok jt p _ hga, hcids]
    by_cases hBA : B = A
    · subst hBA
      simp [scanClientIDs, scanEntries, hB]
    · simp [scanClientIDs, scanEntries, hA, hB, hBA]
  · intro es hga hclean s
    rw [validateAudiences_unfold_ok jt p es hga]
    cases hsc : scanClientIDs es p.ClientIDs with
    | some r =>
      constructor
      · intro h
        have h' : r = Except.ok s := h
        subst h'
        exact (scanClientIDs_clean_ok es hclean p.ClientIDs s).mp hsc
      · intro h
        have hs := (scanClientIDs_clean_ok es hclean p.ClientIDs s).mpr h
        rw [hsc] at hs
        exact Option.some.inj hs
    | none =>
      constructor
      · intro h
        simp at h
      · intro h
        have hs := (scanClientIDs_clean_ok es hclean p.ClientIDs s).mpr h
        rw [hsc] at hs
        cases hs

/-- Claim C5 witness: with client IDs [cid-a, cid-b] and audiences
[cid-b, cid-a], the match is found via cid-a. -/
theorem validateAudiences_order_spec_witness :
    validateAudiences
        { claims := [(audiencesClaimName, GoValue.arr [GoValue.str "cid-b", GoValue.str "cid-a"])]
          header := [] }
        { Issuer := "https://idp.example", ClientIDs := ["cid-a", "cid-b"] } =
      Except.ok "cid-a" :=
  (validateAudiences_order_spec _ _).2.1 "cid-a" "cid-b" (by decide) (by decide) rfl rfl

/-- Claim C6 counterexample: the claim demands `InvalidAudienceType` whenever
any list element is not a string, but the element checks run lazily during the
scan: with client ids [client-1] and audiences [client-1, 42.0], the non-string
element is never examined and validation succeeds. -/
theorem validateAudiences_lazy_check_counterexample :
    validateAudiences
        { claims := [(audiencesClaimName,
            GoValue.arr [GoValue.str "client-1", GoValue.other "float64" "42"])]
          header := [] }
        { Issuer := "https://idp.example", ClientIDs := ["client-1"] } =
      Except.ok "client-1" ∧
    (∀ s, GoValue.other "float64" "42" ≠ GoValue.str s) :=
  ⟨rfl, fun s h => by cases h⟩

/-- Claim C6 (amended): audience validation normalises a scalar string claim to
a one-element sequence and rejects any other claim shape (including a missing
claim) with `InvalidAudienceType`; during matching, element checks are applied
lazily in scan order, so `InvalidAudienceType` is returned only when some
scanned entry is not a string, `InvalidAudience` only when some entry is the
empty string, and `AudienceNotFound` only when no configured client identifier
equals any entry; an ill-formed element positioned after the matching entry is
never examined and does not cause an error. -/
theorem validateAudiences_error_spec (jt : JwtToken) (p : Provider) :
    (∀ s, mapGet jt.claims audiencesClaimName = some (GoValue.str s) →
        getAudiences jt = Except.ok [GoValue.str s]) ∧
    (∀ l, mapGet jt.claims audiencesClaimName = some (GoValue.arr l) →
        getAudiences jt = Except.ok l) ∧
    ((∀ s, mapGet jt.claims audiencesClaimName ≠ some (GoValue.str s)) →
      (∀ l, mapGet jt.claims audiencesClaimName ≠ some (GoValue.arr l)) →
        exceptErrCode (getAudiences jt) = some ValidationErrorCode.invalidAudienceType) ∧
    (∀ e, validateAudiences jt p = Except.error e →
        (e.Code = ValidationErrorCode.invalidAudienceType →
          getAudiences jt = Except.error e ∨
            ∃ es, getAudiences jt = Except.ok es ∧ ∃ x ∈ es, ∀ s, x ≠ GoValue.str s) ∧
        (e.Code = ValidationErrorCode.invalidAudience →
          ∃ es, getAudiences jt = Except.ok es ∧ GoValue.str "" ∈ es) ∧
        (e.Code = ValidationErrorCode.audienceNotFound →
          ∃ es, getAudiences jt = Except.ok es ∧ ∀ c ∈ p.ClientIDs, GoValue.str c ∉ es) ∧
        (e.Code = ValidationErrorCode.invalidAudienceType ∨
          e.Code = ValidationErrorCode.invalidAudience ∨
          e.Code = ValidationErrorCode.audienceNotFound)) ∧
    (∀ s, validateAudiences jt p = Except.ok s →
        s ≠ "" ∧ s ∈ p.ClientIDs ∧
          ∃ es, getAudiences jt = Except.ok es ∧ GoValue.str s ∈ es) := by
  refine ⟨?_, ?_, ?_, ?_, fun s h => validateAudiences_ok_inv jt p s h⟩
  · intro s h
    simp only [getAudiences, h]
  · intro l h
    simp only [getAudiences, h]
  · intro h1 h2
    cases hm : mapGet jt.claims audiencesClaimName with
    | none =>
      simp only [getAudiences, hm]
      rfl
    | some v =>
      cases v with
      | str s => exact absurd hm (h1 s)
      | arr l => exact absurd hm (h2 l)
      | other t d =>
        simp only [getAudiences, hm]
        rfl
  · intro e h
    cases hga : getAudiences jt with
    | error e' =>
      rw [validateAudiences_unfold_err jt p e' hga] at h
      injection h with h
      subst h
      obtain ⟨hcode, -⟩ := getAudiences_error_code jt e' hga
      refine ⟨fun _ => Or.inl rfl, fun hc => ?_, fun hc => ?_, Or.inl hcode⟩
      · rw [hcode] at hc
        cases hc
      · rw [hcode] at hc
        cases hc
    | ok es =>
      rw [validateAudiences_unfold_ok jt p es hga] at h
      cases hsc : scanClientIDs es p.ClientIDs with
      | none =>
        rw [hsc] at h
        have h' :
            Except.error
              (α := String)
              { Code := ValidationErrorCode.audienceNotFound
                Message := "The provider " ++ p.Issuer ++
                  " does not have a client id matching any of the token audiences " ++
                  goFormatValueList es
                HTTPStatus := StatusUnauthorized } = Except.error e := h
        injection h' with h'
        subst h'
        refine ⟨fun hc => ?_, fun hc => ?_, fun _ => ⟨es, rfl, ?_⟩, ?_⟩
        · cases hc
        · cases hc
        · intro c hcmem hmem
          have hnone := (scanClientIDs_none_iff es p.ClientIDs).mp hsc c hcmem
          obtain ⟨s, hxs, -, hsne⟩ := (scanEntries_cases c es).1 hnone _ hmem
          injection hxs with hxs
          exact hsne hxs.symm
        · right
          right
          rfl
      | some r =>
        rw [hsc] at h
        have h' : r = Except.error e := h
        subst h'
        obtain ⟨c, hcmem, hse⟩ := scanClientIDs_some_mem es p.ClientIDs _ hsc
        obtain ⟨-, hcs⟩ := (scanEntries_cases c es).2.2 e hse
        rcases hcs with ⟨hc1, x, hx, hxne⟩ | ⟨hc2, hmm⟩
        · refine ⟨fun _ => Or.inr ⟨es, rfl, x, hx, hxne⟩, fun hc => ?_, fun hc => ?_, Or.inl hc1⟩
          · rw [hc1] at hc
            cases hc
          · rw [hc1] at hc
            cases hc
        · refine ⟨fun hc => ?_, fun _ => ⟨es, rfl, hmm⟩, fun hc => ?_, Or.inr (Or.inl hc2)⟩
          · rw [hc2] at hc
            cases hc
          · rw [hc2] at hc
            cases hc

/-- Claim C8: every `ValidationError` constructed by issuer, audience, or
subject validation carries HTTP status 401 (`http.StatusUnauthorized`), for
every input token and provider. -/
theorem claim_validation_http_status (jt : JwtToken) (ps : List Provider) (p : Provider)
    (e : ValidationError) :
    (validateIssuer jt ps = Except.error e → e.HTTPStatus = StatusUnauthorized) ∧
    (validateAudiences jt p = Except.error e → e.HTTPStatus = StatusUnauthorized) ∧
    (validateSubject jt = Except.error e → e.HTTPStatus = StatusUnauthorized) ∧
    StatusUnauthorized = 401 := by
  refine ⟨?_, ?_, ?_, rfl⟩
  · intro h
    simp only [validateIssuer] at h
    split at h
    · split at h
      · injection h with h
        subst h
        rfl
      · split at h
        · cases h
        · injection h with h
          subst h
          rfl
    · injection h with h
      subst h
      rfl
  · intro h
    cases hga : getAudiences jt with
    | error e' =>
      rw [validateAudiences_unfold_err jt p e' hga] at h
      injection h with h
      subst h
      exact (getAudiences_error_code jt e' hga).2
    | ok es =>
      rw [validateAudiences_unfold_ok jt p es hga] at h
      cases hsc : scanClientIDs es p.ClientIDs with
      | none =>
        rw [hsc] at h
        have h' :
            Except.error
              (α := String)
              { Code := ValidationErrorCode.audienceNotFound
                Message := "The provider " ++ p.Issuer ++
                  " does not have a client id matching any of the token audiences " ++
                  goFormatValueList es
                HTTPStatus := StatusUnauthorized } = Except.error e := h
        injection h' with h'
        subst h'
        rfl
      | some r =>
        rw [hsc] at h
        have h' : r = Except.error e := h
        subst h'
        obtain ⟨c, -, hse⟩ := scanClientIDs_some_mem es p.ClientIDs _ hsc
        exact ((scanEntries_cases c es).2.2 e hse).1
  · intro h
    simp only [validateSubject] at h
    split at h
    · split at h
      · injection h with h
        subst h
        rfl
      · cases h
    · injection h with h
      subst h
      rfl

/-- Claim C8 witness: the error produced for a token with no issuer claim
carries HTTP status 401. -/
theorem claim_validation_http_status_witness :
    ValidationError.HTTPStatus
        { Code := ValidationErrorCode.invalidIssuerType
          Message := "Invalid Issuer type: <nil>"
          HTTPStatus := StatusUnauthorized } = StatusUnauthorized :=
  (claim_validation_http_status { claims := [], header := [] } [] provW
      { Code := ValidationErrorCode.invalidIssuerType
        Message := "Invalid Issuer type: <nil>"
        HTTPStatus := StatusUnauthorized }).1 rfl

/-- Claim C2: the first-pass key callback runs provider fetch, provider-list
validation, issuer, audience and subject validation, then key fetch and
decode, in that fixed order, short-circuiting on (and returning) the first
error; the key resolver is called at most once per attempt, exactly when all
prior steps succeeded, and only after the three claim validations. -/
theorem getSigningKey_pipeline {σ : Type} (tv : idTokenValidator σ) (st : σ) (jt : JwtToken) :
    (∀ e, tv.provGetter = Except.error e →
        tv.getSigningKey st jt = (Outcome.err e, st, [Event.getProvidersCall])) ∧
    (∀ provs e, tv.provGetter = Except.ok provs → providersValidate provs = some e →
        tv.getSigningKey st jt =
          (Outcome.err e, st, [Event.getProvidersCall, Event.providersValidateCall])) ∧
    (∀ provs v, tv.provGetter = Except.ok provs → providersValidate provs = none →
        validateIssuer jt provs = Except.error v →
        tv.getSigningKey st jt =
          (Outcome.err (GoError.validation v), st,
            [Event.getProvidersCall, Event.providersValidateCall,
              Event.validateIssuerCall])) ∧
    (∀ provs p v, tv.provGetter = Except.ok provs → providersValidate provs = none →
        validateIssuer jt provs = Except.ok p → validateAudiences jt p = Except.error v →
        tv.getSigningKey st jt =
          (Outcome.err (GoError.validation v), st,
            [Event.getProvidersCall, Event.providersValidateCall, Event.validateIssuerCall,
              Event.validateAudiencesCall])) ∧
    (∀ provs p a v, tv.provGetter = Except.ok provs → providersValidate provs = none →
        validateIssuer jt provs = Except.ok p → validateAudiences jt p = Except.ok a →
        validateSubject jt = Except.error v →
        tv.getSigningKey st jt =
          (Outcome.err (GoError.validation v), st,
            [Event.getProvidersCall, Event.providersValidateCall, Event.validateIssuerCall,
              Event.validateAudiencesCall, Event.validateSubjectCall])) ∧
    (∀ provs p a su e st2, tv.provGetter = Except.ok provs → providersValidate provs = none →
        validateIssuer jt provs = Except.ok p → validateAudiences jt p = Except.ok a →
        validateSubject jt = Except.ok su →
        tv.keyGetter.getSigningKey st p.Issuer (getTokenKid jt) = (Except.error e, st2) →
        tv.getSigningKey st jt =
          (Outcome.err e, st2,
            [Event.getProvidersCall, Event.providersValidateCall, Event.validateIssuerCall,
              Event.validateAudiencesCall, Event.validateSubjectCall,
              Event.getKeyCall p.Issuer (getTokenKid jt)])) ∧
    (∀ provs p a su key st2, tv.provGetter = Except.ok provs → providersValidate provs = none →
        validateIssuer jt provs = Except.ok p → validateAudiences jt p = Except.ok a →
        validateSubject jt = Except.ok su →
        tv.keyGetter.getSigningKey st p.Issuer (getTokenKid jt) = (Except.ok key, st2) →
        tv.getSigningKey st jt =
          ((match tv.rsaParser key with
            | Except.ok k => Outcome.ok k
            | Except.error e2 => Outcome.err e2), st2,
            [Event.getProvidersCall, Event.providersValidateCall, Event.validateIssuerCall,
              Event.validateAudiencesCall, Event.validateSubjectCall,
              Event.getKeyCall p.Issuer (getTokenKid jt), Event.rsaParseCall])) ∧
    getKeyCount (tv.getSigningKey st jt).2.2 ≤ 1 ∧
    ((∃ i k2, Event.getKeyCall i k2 ∈ (tv.getSigningKey st jt).2.2) ↔
      (∃ provs p, tv.provGetter = Except.ok provs ∧ providersValidate provs = none ∧
        validateIssuer jt provs = Except.ok p ∧
        (∃ a, validateAudiences jt p = Except.ok a) ∧
        (∃ su, validateSubject jt = Except.ok su))) := by
  have hboth : getKeyCount (tv.getSigningKey st jt).2.2 ≤ 1 ∧
      ((∃ i k2, Event.getKeyCall i k2 ∈ (tv.getSigningKey st jt).2.2) ↔
        (∃ provs p, tv.provGetter = Except.ok provs ∧ providersValidate provs = none ∧
          validateIssuer jt provs = Except.ok p ∧
          (∃ a, validateAudiences jt p = Except.ok a) ∧
          (∃ su, validateSubject jt = Except.ok su))) := by
    rcases hpg : tv.provGetter with e | provs
    · have hv : tv.getSigningKey st jt = (Outcome.err e, st, [Event.getProvidersCall]) := by
        simp only [idTokenValidator.getSigningKey, hpg]
      rw [hv]
      refine ⟨by simp [getKeyCount], ?_, ?_⟩
      · rintro ⟨i, k2, hm⟩
        simp at hm
      · rintro ⟨provs, p, hc, -⟩
        cases hc
    · cases hpv : providersValidate provs with
      | some e =>
        have hv : tv.getSigningKey st jt =
            (Outcome.err e, st, [Event.getProvidersCall, Event.providersValidateCall]) := by
          simp only [idTokenValidator.getSigningKey, hpg, hpv]
        rw [hv]
        refine ⟨by simp [getKeyCount], ?_, ?_⟩
        · rintro ⟨i, k2, hm⟩
          simp at hm
        · rintro ⟨provs', p, hc, hc2, -⟩
          injection hc with hc
          subst hc
          rw [hpv] at hc2
          cases hc2
      | none =>
        cases hvi : validateIssuer jt provs with
        | error v =>
          have hv : tv.getSigningKey st jt =
              (Outcome.err (GoError.validation v), st,
                [Event.getProvidersCall, Event.providersValidateCall,
                  Event.validateIssuerCall]) := by
            simp only [idTokenValidator.getSigningKey, hpg, hpv, hvi]
          rw [hv]
          refine ⟨by simp [getKeyCount], ?_, ?_⟩
          · rintro ⟨i, k2, hm⟩
            simp at hm
          · rintro ⟨provs', p, hc, -, hc3, -⟩
            injection hc with hc
            subst hc
            rw [hvi] at hc3
            cases hc3
        | ok p =>
          cases hva : validateAudiences jt p with
          | error v =>
            have hv : tv.getSigningKey st jt =
                (Outcome.err (GoError.validation v), st,
                  [Event.getProvidersCall, Event.providersValidateCall,
                    Event.validateIssuerCall, Event.validateAudiencesCall]) := by
              simp only [idTokenValidator.getSigningKey, hpg, hpv, hvi, hva]
            rw [hv]
            refine ⟨by simp [getKeyCount], ?_, ?_⟩
            · rintro ⟨i, k2, hm⟩
              simp at hm
            · rintro ⟨provs', p', hc, -, hc3, ⟨a, hc4⟩, -⟩
              injection hc with hc
              subst hc
              rw [hvi] at hc3
              injection hc3 with hc3
              subst hc3
              rw [hva] at hc4
              cases hc4
          | ok a =>
            cases hvs : validateSubject jt with
            | error v =>
              have hv : tv.getSigningKey st jt =
                  (Outcome.err (GoError.validation v), st,
                    [Event.getProvidersCall, Event.providersValidateCall,
                      Event.validateIssuerCall, Event.validateAudiencesCall,
                      Event.validateSubjectCall]) := by
                simp only [idTokenValidator.getSigningKey, hpg, hpv, hvi, hva, hvs]
              rw [hv]
              refine ⟨by simp [getKeyCount], ?_, ?_⟩
              · rintro ⟨i, k2, hm⟩
                simp at hm
              · rintro ⟨provs', p', hc, -, hc3, -, su, hc5⟩
                cases hc5
            | ok su =>
              rcases hk : tv.keyGetter.getSigningKey st p.Issuer (getTokenKid jt) with
                ⟨e | key, st2⟩
              · have hv : tv.getSigningKey st jt =
                    (Outcome.err e, st2,
                      [Event.getProvidersCall, Event.providersValidateCall,
                        Event.validateIssuerCall, Event.validateAudiencesCall,
                        Event.validateSubjectCall,
                        Event.getKeyCall p.Issuer (getTokenKid jt)]) := by
                  simp only [idTokenValidator.getSigningKey, hpg, hpv, hvi, hva, hvs, hk]
                rw [hv]
                refine ⟨by simp [getKeyCount], ?_, ?_⟩
                · intro _
                  exact ⟨provs, p, rfl, hpv, hvi, ⟨a, hva⟩, su, rfl⟩
                · intro _
                  exact ⟨p.Issuer, getTokenKid jt, by simp⟩
              · have hv : tv.getSigningKey st jt =
                    ((match tv.rsaParser key with
                      | Except.ok k => Outcome.ok k
                      | Except.error e2 => Outcome.err e2), st2,
                      [Event.getProvidersCall, Event.providersValidateCall,
                        Event.validateIssuerCall, Event.validateAudiencesCall,
                        Event.validateSubjectCall,
                        Event.getKeyCall p.Issuer (getTokenKid jt), Event.rsaParseCall]) := by
                  simp only [idTokenValidator.getSigningKey, hpg, hpv, hvi, hva, hvs, hk]
                rw [hv]
                refine ⟨by simp [getKeyCount], ?_, ?_⟩
                · intro _
                  exact ⟨provs, p, rfl, hpv, hvi, ⟨a, hva⟩, su, rfl⟩
                · intro _
                  exact ⟨p.Issuer, getTokenKid jt, by simp⟩
  refine ⟨?_, ?_, ?_, ?_, ?_, ?_, ?_, hboth.1, hboth.2⟩
  · intro e h
    simp only [idTokenValidator.getSigningKey, h]
  · intro provs e h1 h2
    simp only [idTokenValidator.getSigningKey, h1, h2]
  · intro provs v h1 h2 h3
    simp only [idTokenValidator.getSigningKey, h1, h2, h3]
  · intro provs p v h1 h2 h3 h4
    simp only [idTokenValidator.getSigningKey, h1, h2, h3, h4]
  · intro provs p a v h1 h2 h3 h4 h5
    simp only [idTokenValidator.getSigningKey, h1, h2, h3, h4, h5]
  · intro provs p a su e st2 h1 h2 h3 h4 h5 h6
    simp only [idTokenValidator.getSigningKey, h1, h2, h3, h4, h5, h6]
  · intro provs p a su key st2 h1 h2 h3 h4 h5 h6
    simp only [idTokenValidator.getSigningKey, h1, h2, h3, h4, h5, h6]

/-- Claim C2 witness: with all collaborators succeeding on the scenario token,
the callback performs the full ordered pipeline and one key fetch. -/
theorem getSigningKey_pipeline_witness :
    tvW.getSigningKey () tokW =
      (Outcome.ok { N := 91, E := 65537 }, (),
        [Event.getProvidersCall, Event.providersValidateCall, Event.validateIssuerCall,
          Event.validateAudiencesCall, Event.validateSubjectCall,
          Event.getKeyCall "https://idp.example" "key-1", Event.rsaParseCall]) :=
  (getSigningKey_pipeline tvW () tokW).2.2.2.2.2.2.1 [provW] provW "client-1" "user-42"
    [1, 2, 3] () rfl rfl rfl rfl rfl rfl

/-- Claim C9: any error from the provider source, the key resolver (fetch or
flush), or the key decoder is returned from the key callbacks as the very same
error value, not wrapped into or replaced by a `ValidationError`, on both the
first-pass path and the renewal path. -/
theorem collaborator_error_passthrough {σ : Type} (tv : idTokenValidator σ) (st : σ)
    (jt : JwtToken) :
    (∀ e, tv.provGetter = Except.error e → (tv.getSigningKey st jt).1 = Outcome.err e) ∧
    (∀ provs p a su e st2, tv.provGetter = Except.ok provs → providersValidate provs = none →
        validateIssuer jt provs = Except.ok p → validateAudiences jt p = Except.ok a →
        validateSubject jt = Except.ok su →
        tv.keyGetter.getSigningKey st p.Issuer (getTokenKid jt) = (Except.error e, st2) →
        (tv.getSigningKey st jt).1 = Outcome.err e) ∧
    (∀ provs p a su key e st2, tv.provGetter = Except.ok provs → providersValidate provs = none →
        validateIssuer jt provs = Except.ok p → validateAudiences jt p = Except.ok a →
        validateSubject jt = Except.ok su →
        tv.keyGetter.getSigningKey st p.Issuer (getTokenKid jt) = (Except.ok key, st2) →
        tv.rsaParser key = Except.error e →
        (tv.getSigningKey st jt).1 = Outcome.err e) ∧
    (∀ iss e st2, mapGet jt.claims issuerClaimName = some (GoValue.str iss) →
        tv.keyGetter.flushCachedSigningKeys st iss = (some e, st2) →
        (tv.renewAndGetSigningKey st jt).1 = Outcome.err e) ∧
    (∀ iss st2 e st3, mapGet jt.claims issuerClaimName = some (GoValue.str iss) →
        tv.keyGetter.flushCachedSigningKeys st iss = (none, st2) →
        tv.keyGetter.getSigningKey st2 iss (getTokenKid jt) = (Except.error e, st3) →
        (tv.renewAndGetSigningKey st jt).1 = Outcome.err e) ∧
    (∀ iss st2 key st3 e, mapGet jt.claims issuerClaimName = some (GoValue.str iss) →
        tv.keyGetter.flushCachedSigningKeys st iss = (none, st2) →
        tv.keyGetter.getSigningKey st2 iss (getTokenKid jt) = (Except.ok key, st3) →
        tv.rsaParser key = Except.error e →
        (tv.renewAndGetSigningKey st jt).1 = Outcome.err e) := by
  refine ⟨?_, ?_, ?_, ?_, ?_, ?_⟩
  · intro e h
    simp only [idTokenValidator.getSigningKey, h]
  · intro provs p a su e st2 h1 h2 h3 h4 h5 h6
    simp only [idTokenValidator.getSigningKey, h1, h2, h3, h4, h5, h6]
  · intro provs p a su key e st2 h1 h2 h3 h4 h5 h6 h7
    simp only [idTokenValidator.getSigningKey, h1, h2, h3, h4, h5, h6, h7]
  · intro iss e st2 h1 h2
    simp only [idTokenValidator.renewAndGetSigningKey, h1, h2]
  · intro iss st2 e st3 h1 h2 h3
    simp only [idTokenValidator.renewAndGetSigningKey, h1, h2, h3]
  · intro iss st2 key st3 e h1 h2 h3 h4
    simp only [idTokenValidator.renewAndGetSigningKey, h1, h2, h3, h4]

/-- Claim C9 witness: a failing provider source surfaces its own error value
from the first-pass callback. -/
theorem collaborator_error_passthrough_witness :
    (tvErrProv.getSigningKey () tokW).1 =
      Outcome.err (GoError.infra "provider source unavailable") :=
  (collaborator_error_passthrough tvErrProv () tokW).1
    (GoError.infra "provider source unavailable") rfl

/-- `parseCount` distributes over trace concatenation. -/
theorem parseCount_append (l1 l2 : List Event) :
    parseCount (l1 ++ l2) = parseCount l1 + parseCount l2 := by
  induction l1 with
  | nil => simp [parseCount]
  | cons e t ih => cases e <;> (simp [parseCount, ih]; try omega)

/-- One parse attempt: the parser invokes the callback exactly once, records one
parse event, and completes according to its behaviour on the callback result. -/
theorem runParse_spec {σ : Type} (pb : ParserBehavior)
    (cb : σ → JwtToken → Outcome RSAPublicKey × σ × List Event) (st : σ)
    (r : Outcome RSAPublicKey) (st1 : σ) (tr : List Event)
    (hcb : cb st pb.tok = (r, st1, tr)) :
    runParse pb cb st = (parserStep pb r, st1, Event.parseAttempt :: tr) := by
  cases r <;> simp [runParse, parserStep, hcb]

/-- Global facts about the first-pass callback: it records no parse or flush
events, never panics, and succeeds only after issuer validation succeeded. -/
theorem getSigningKey_trace_facts {σ : Type} (tv : idTokenValidator σ) (st : σ)
    (jt : JwtToken) :
    parseCount (tv.getSigningKey st jt).2.2 = 0 ∧
    flushCount (tv.getSigningKey st jt).2.2 = 0 ∧
    (∀ m, (tv.getSigningKey st jt).1 ≠ Outcome.panicked m) ∧
    (∀ k, (tv.getSigningKey st jt).1 = Outcome.ok k →
      ∃ provs p, tv.provGetter = Except.ok provs ∧ validateIssuer jt provs = Except.ok p) := by
  rcases hpg : tv.provGetter with e | provs
  · have hv : tv.getSigningKey st jt = (Outcome.err e, st, [Event.getProvidersCall]) := by
      simp only [idTokenValidator.getSigningKey, hpg]
    rw [hv]
    refine ⟨rfl, rfl, fun m h => ?_, fun k h => ?_⟩
    · cases h
    · cases h
  · cases hpv : providersValidate provs with
    | some e =>
      have hv : tv.getSigningKey st jt =
          (Outcome.err e, st, [Event.getProvidersCall, Event.providersValidateCall]) := by
        simp only [idTokenValidator.getSigningKey, hpg, hpv]
      rw [hv]
      refine ⟨rfl, rfl, fun m h => ?_, fun k h => ?_⟩
      · cases h
      · cases h
    | none =>
      cases hvi : validateIssuer jt provs with
      | error v =>
        have hv : tv.getSigningKey st jt =
            (Outcome.err (GoError.validation v), st,
              [Event.getProvidersCall, Event.providersValidateCall,
                Event.validateIssuerCall]) := by
          simp only [idTokenValidator.getSigningKey, hpg, hpv, hvi]
        rw [hv]
        refine ⟨rfl, rfl, fun m h => ?_, fun k h => ?_⟩
        · cases h
        · cases h
      | ok p =>
        cases hva : validateAudiences jt p with
        | error v =>
          have hv : tv.getSigningKey st jt =
              (Outcome.err (GoError.validation v), st,
                [Event.getProvidersCall, Event.providersValidateCall,
                  Event.validateIssuerCall, Event.validateAudiencesCall]) := by
            simp only [idTokenValidator.getSigningKey, hpg, hpv, hvi, hva]
          rw [hv]
          refine ⟨rfl, rfl, fun m h => ?_, fun k h => ?_⟩
          · cases h
          · cases h
        | ok a =>
          cases hvs : validateSubject jt with
          | error v =>
            have hv : tv.getSigningKey st jt =
                (Outcome.err (GoError.validation v), st,
                  [Event.getProvidersCall, Event.providersValidateCall,
                    Event.validateIssuerCall, Event.validateAudiencesCall,
                    Event.validateSubjectCall]) := by
              simp only [idTokenValidator.getSigningKey, hpg, hpv, hvi, hva, hvs]
            rw [hv]
            refine ⟨rfl, rfl, fun m h => ?_, fun k h => ?_⟩
            · cases h
            · cases h
          | ok su =>
            rcases hk : tv.keyGetter.getSigningKey st p.Issuer (getTokenKid jt) with
              ⟨e | key, st2⟩
            · have hv : tv.getSigningKey st jt =
                  (Outcome.err e, st2,
                    [Event.getProvidersCall, Event.providersValidateCall,
                      Event.validateIssuerCall, Event.validateAudiencesCall,
                      Event.validateSubjectCall,
                      Event.getKeyCall p.Issuer (getTokenKid jt)]) := by
                simp only [idTokenValidator.getSigningKey, hpg, hpv, hvi, hva, hvs, hk]
              rw [hv]
              refine ⟨rfl, rfl, fun m h => ?_, fun k h => ?_⟩
              · cases h
              · cases h
            · have hv : tv.getSigningKey st jt =
                  ((match tv.rsaParser key with
                    | Except.ok k => Outcome.ok k
                    | Except.error e2 => Outcome.err e2), st2,
                    [Event.getProvidersCall, Event.providersValidateCall,
                      Event.validateIssuerCall, Event.validateAudiencesCall,
                      Event.validateSubjectCall,
                      Event.getKeyCall p.Issuer (getTokenKid jt), Event.rsaParseCall]) := by
                simp only [idTokenValidator.getSigningKey, hpg, hpv, hvi, hva, hvs, hk]
              rw [hv]
              refine ⟨rfl, rfl, ?_, ?_⟩
              · intro m h
                cases hr : tv.rsaParser key with
                | ok k => rw [hr] at h; cases h
                | error e2 => rw [hr] at h; cases h
              · intro k h
                exact ⟨provs, p, rfl, hvi⟩

/-- A successful issuer validation implies the issuer claim is a non-empty
string. -/
theorem validateIssuer_ok_claim (jt : JwtToken) (ps : List Provider) (p : Provider)
    (h : validateIssuer jt ps = Except.ok p) :
    ∃ s, getIssuer jt = some (GoValue.str s) ∧ s ≠ "" := by
  cases hg : getIssuer jt with
  | none => simp [validateIssuer, hg] at h
  | some v =>
    cases v with
    | str ti =>
      by_cases hti : ti = ""
      · subst hti
        simp [validateIssuer, hg] at h
      · exact ⟨ti, rfl, hti⟩
    | arr l => simp [validateIssuer, hg] at h
    | other t d => simp [validateIssuer, hg] at h

/-- Behaviour of the renewal callback when the token's issuer claim is a
string: its trace is one flush for that issuer, then at most one key fetch and
one decode; it records no parse or claim-validation events and cannot panic. -/
theorem renewAndGetSigningKey_spec {σ : Type} (tv : idTokenValidator σ) (st : σ)
    (jt : JwtToken) (iss : String)
    (hiss : mapGet jt.claims issuerClaimName = some (GoValue.str iss)) :
    renewalTraceShape iss (getTokenKid jt) (tv.renewAndGetSigningKey st jt).2.2 ∧
    (∀ m, (tv.renewAndGetSigningKey st jt).1 ≠ Outcome.panicked m) ∧
    parseCount (tv.renewAndGetSigningKey st jt).2.2 = 0 ∧
    hasClaimValidationEvent (tv.renewAndGetSigningKey st jt).2.2 = false ∧
    flushCount (tv.renewAndGetSigningKey st jt).2.2 = 1 := by
  rcases hf : tv.keyGetter.flushCachedSigningKeys st iss with ⟨oe, st2⟩
  cases oe with
  | some e =>
    have hv : tv.renewAndGetSigningKey st jt =
        (Outcome.err e, st2, [Event.flushCall iss]) := by
      simp only [idTokenValidator.renewAndGetSigningKey, hiss, hf]
    rw [hv]
    refine ⟨Or.inl rfl, fun m h => ?_, rfl, rfl, rfl⟩
    cases h
  | none =>
    rcases hk : tv.keyGetter.getSigningKey st2 iss (getTokenKid jt) with ⟨e | key, st3⟩
    · have hv : tv.renewAndGetSigningKey st jt =
          (Outcome.err e, st3,
            [Event.flushCall iss, Event.getKeyCall iss (getTokenKid jt)]) := by
        simp only [idTokenValidator.renewAndGetSigningKey, hiss, hf, hk]
      rw [hv]
      refine ⟨Or.inr (Or.inl rfl), fun m h => ?_, rfl, rfl, rfl⟩
      cases h
    · have hv : tv.renewAndGetSigningKey st jt =
          ((match tv.rsaParser key with
            | Except.ok k => Outcome.ok k
            | Except.error e2 => Outcome.err e2), st3,
            [Event.flushCall iss, Event.getKeyCall iss (getTokenKid jt),
              Event.rsaParseCall]) := by
        simp only [idTokenValidator.renewAndGetSigningKey, hiss, hf, hk]
      rw [hv]
      refine ⟨Or.inr (Or.inr rfl), ?_, rfl, rfl, rfl⟩
      intro m h
      cases hr : tv.rsaParser key with
      | ok k => rw [hr] at h; cases h
      | error e2 => rw [hr] at h; cases h

/-- How `validate` dispatches on the result of the first parse attempt, and, on
the signature-invalid retry path, on the result of the second. -/
theorem validate_first_result {σ : Type} (tv : idTokenValidator σ)
    (pb1 pb2 : ParserBehavior) (st : σ) (res1 : Outcome JwtToken) (st1 : σ) (tr1 : List Event)
    (h1 : runParse pb1 tv.getSigningKey st = (res1, st1, tr1)) :
    (∀ jt2, res1 = Outcome.ok jt2 →
        tv.validate pb1 pb2 st = (Outcome.ok jt2, st1, tr1)) ∧
    (∀ m, res1 = Outcome.panicked m →
        tv.validate pb1 pb2 st = (Outcome.panicked m, st1, tr1)) ∧
    (∀ e, res1 = Outcome.err e → sigInvalidErr e = false →
        tv.validate pb1 pb2 st =
          (Outcome.err (jwtErrorToOpenIDError e), st1, tr1)) ∧
    (∀ e, res1 = Outcome.err e → sigInvalidErr e = true →
      ∀ res2 st2 tr2, runParse pb2 tv.renewAndGetSigningKey st1 = (res2, st2, tr2) →
        (∀ jt2, res2 = Outcome.ok jt2 →
            tv.validate pb1 pb2 st = (Outcome.ok jt2, st2, tr1 ++ tr2)) ∧
        (∀ m, res2 = Outcome.panicked m →
            tv.validate pb1 pb2 st = (Outcome.panicked m, st2, tr1 ++ tr2)) ∧
        (∀ e2, res2 = Outcome.err e2 →
            tv.validate pb1 pb2 st =
              (Outcome.err (jwtErrorToOpenIDError e2), st2, tr1 ++ tr2))) := by
  refine ⟨?_, ?_, ?_, ?_⟩
  · intro jt2 hres
    subst hres
    simp only [idTokenValidator.validate, h1]
  · intro m hres
    subst hres
    simp only [idTokenValidator.validate, h1]
  · intro e hres hflag
    subst hres
    simp only [idTokenValidator.validate, h1, hflag]
    rfl
  · intro e hres hflag res2 st2 tr2 h2
    subst hres
    refine ⟨?_, ?_, ?_⟩
    · intro jt2 hres2
      subst hres2
      simp only [idTokenValidator.validate, h1, hflag, h2]
      rfl
    · intro m hres2
      subst hres2
      simp only [idTokenValidator.validate, h1, hflag, h2]
      rfl
    · intro e2 hres2
      subst hres2
      simp only [idTokenValidator.validate, h1, hflag, h2]
      rfl

/-- When the first attempt's result does not carry the signature-invalid
condition, `validate` performs exactly one parse attempt and returns any error
translated but otherwise as produced. -/
theorem validate_no_retry {σ : Type} (tv : idTokenValidator σ) (pb1 pb2 : ParserBehavior)
    (st : σ) (res1 : Outcome JwtToken) (st1 : σ) (tr1 : List Event)
    (hfirst : runParse pb1 tv.getSigningKey st = (res1, st1, Event.parseAttempt :: tr1))
    (hptr1 : parseCount tr1 = 0)
    (hnosig : ∀ e, res1 = Outcome.err e → sigInvalidErr e = false) :
    parseCount (tv.validate pb1 pb2 st).2.2 = 1 ∧
    (∀ e, res1 = Outcome.err e →
        tv.validate pb1 pb2 st =
          (Outcome.err (jwtErrorToOpenIDError e), st1, Event.parseAttempt :: tr1)) := by
  have hvfr := validate_first_result tv pb1 pb2 st res1 st1 (Event.parseAttempt :: tr1) hfirst
  cases res1 with
  | ok jt2 =>
    have hv := hvfr.1 jt2 rfl
    rw [hv]
    refine ⟨by simp [parseCount, hptr1], fun e he => ?_⟩
    cases he
  | panicked m =>
    have hv := hvfr.2.1 m rfl
    rw [hv]
    refine ⟨by simp [parseCount, hptr1], fun e he => ?_⟩
    cases he
  | err e =>
    have hv := hvfr.2.2.1 e rfl (hnosig e rfl)
    rw [hv]
    refine ⟨by simp [parseCount, hptr1], fun e2 he2 => ?_⟩
    injection he2 with he2
    subst he2
    rfl

/-- Claim C1: per top-level `validate` call the parser runs at most twice; a
second attempt happens exactly when the first fails with a
`*jwt.ValidationError` carrying the signature-invalid bit (any other failure,
including every callback `ValidationError`, is returned — translated — without
retry); the retry's renewal callback performs one flush for the issuer
re-extracted from the token's claims, then at most one key re-fetch and decode,
repeats no claim matching, and any failure of the second attempt is terminal:
no third parse attempt occurs. -/
theorem validate_retry_discipline {σ : Type} (tv : idTokenValidator σ)
    (pb1 pb2 : ParserBehavior) (st : σ)
    (hwrap : ∀ e, ∃ e', pb1.outcome (Except.error e) = Except.error e' ∧
        sigInvalidErr e' = false)
    (hiss : ∃ s, mapGet pb2.tok.claims issuerClaimName = some (GoValue.str s)) :
    parseCount (tv.validate pb1 pb2 st).2.2 ≤ 2 ∧
    (parseCount (tv.validate pb1 pb2 st).2.2 = 2 ↔
      ∃ e, (runParse pb1 tv.getSigningKey st).1 = Outcome.err e ∧ sigInvalidErr e = true) ∧
    (∀ e, (runParse pb1 tv.getSigningKey st).1 = Outcome.err e → sigInvalidErr e = false →
        tv.validate pb1 pb2 st =
          (Outcome.err (jwtErrorToOpenIDError e), (runParse pb1 tv.getSigningKey st).2.1,
            (runParse pb1 tv.getSigningKey st).2.2) ∧
        parseCount (tv.validate pb1 pb2 st).2.2 = 1) ∧
    (∀ e, (tv.getSigningKey st pb1.tok).1 = Outcome.err e →
        parseCount (tv.validate pb1 pb2 st).2.2 = 1) ∧
    (∀ e, (runParse pb1 tv.getSigningKey st).1 = Outcome.err e → sigInvalidErr e = true →
        ∃ s tr2,
          mapGet pb2.tok.claims issuerClaimName = some (GoValue.str s) ∧
          (tv.validate pb1 pb2 st).2.2 =
            (runParse pb1 tv.getSigningKey st).2.2 ++ Event.parseAttempt :: tr2 ∧
          renewalTraceShape s (getTokenKid pb2.tok) tr2 ∧
          hasClaimValidationEvent tr2 = false ∧
          flushCount tr2 = 1 ∧
          parseCount tr2 = 0 ∧
          (∀ e2, (runParse pb2 tv.renewAndGetSigningKey
              (runParse pb1 tv.getSigningKey st).2.1).1 = Outcome.err e2 →
            (tv.validate pb1 pb2 st).1 = Outcome.err (jwtErrorToOpenIDError e2))) := by
  obtain ⟨s0, hs0⟩ := hiss
  rcases hcb : tv.getSigningKey st pb1.tok with ⟨r1, st1, tr1⟩
  have hptr1 : parseCount tr1 = 0 := by
    have h := (getSigningKey_trace_facts tv st pb1.tok).1
    rw [hcb] at h
    exact h
  have hrp1 := runParse_spec pb1 tv.getSigningKey st r1 st1 tr1 hcb
  by_cases hsig : ∃ e, (runParse pb1 tv.getSigningKey st).1 = Outcome.err e ∧
      sigInvalidErr e = true
  · obtain ⟨e1, he1, hflag1⟩ := hsig
    have hX : parserStep pb1 r1 = Outcome.err e1 := by
      rw [hrp1] at he1
      exact he1
    have hfirst : runParse pb1 tv.getSigningKey st =
        (Outcome.err e1, st1, Event.parseAttempt :: tr1) := by
      rw [hrp1, hX]
    rcases hcb2 : tv.renewAndGetSigningKey st1 pb2.tok with ⟨r2, st2, tr2c⟩
    have hrspec := renewAndGetSigningKey_spec tv st1 pb2.tok s0 hs0
    have hshape : renewalTraceShape s0 (getTokenKid pb2.tok) tr2c := by
      have h := hrspec.1
      rw [hcb2] at h
      exact h
    have hnoclaim : hasClaimValidationEvent tr2c = false := by
      have h := hrspec.2.2.2.1
      rw [hcb2] at h
      exact h
    have hflush : flushCount tr2c = 1 := by
      have h := hrspec.2.2.2.2
      rw [hcb2] at h
      exact h
    have hptr2 : parseCount tr2c = 0 := by
      have h := hrspec.2.2.1
      rw [hcb2] at h
      exact h
    have hrp2 := runParse_spec pb2 tv.renewAndGetSigningKey st1 r2 st2 tr2c hcb2
    have hretry := (validate_first_result tv pb1 pb2 st _ _ _ hfirst).2.2.2 e1 rfl hflag1
      _ _ _ hrp2
    have huni : (tv.validate pb1 pb2 st).2.2 =
          (Event.parseAttempt :: tr1) ++ Event.parseAttempt :: tr2c ∧
        (∀ e2, (runParse pb2 tv.renewAndGetSigningKey st1).1 = Outcome.err e2 →
          (tv.validate pb1 pb2 st).1 = Outcome.err (jwtErrorToOpenIDError e2)) := by
      cases r2 with
      | panicked mm =>
        have hmm : (tv.renewAndGetSigningKey st1 pb2.tok).1 = Outcome.panicked mm := by
          rw [hcb2]
        exact absurd hmm (hrspec.2.1 mm)
      | ok k2 =>
        cases ho2 : pb2.outcome (Except.ok k2) with
        | ok jt2 =>
          have hv := hretry.1 jt2 (by simp [parserStep, ho2, outcomeOfExcept])
          rw [hv]
          refine ⟨rfl, fun e2 he2 => ?_⟩
          have h' : outcomeOfExcept (pb2.outcome (Except.ok k2)) = Outcome.err e2 := by
            rw [hrp2] at he2
            exact he2
          rw [ho2] at h'
          cases h'
        | error e2x =>
          have hv := hretry.2.2 e2x (by simp [parserStep, ho2, outcomeOfExcept])
          rw [hv]
          refine ⟨rfl, fun e2 he2 => ?_⟩
          have h' : outcomeOfExcept (pb2.outcome (Except.ok k2)) = Outcome.err e2 := by
            rw [hrp2] at he2
            exact he2
          rw [ho2] at h'
          have h'' : Outcome.err (α := JwtToken) e2x = Outcome.err e2 := h'
          injection h'' with h''
          subst h''
          rfl
      | err e0 =>
        cases ho2 : pb2.outcome (Except.error e0) with
        | ok jt2 =>
          have hv := hretry.1 jt2 (by simp [parserStep, ho2, outcomeOfExcept])
          rw [hv]
          refine ⟨rfl, fun e2 he2 => ?_⟩
          have h' : outcomeOfExcept (pb2.outcome (Except.error e0)) = Outcome.err e2 := by
            rw [hrp2] at he2
            exact he2
          rw [ho2] at h'
          cases h'
        | error e2x =>
          have hv := hretry.2.2 e2x (by simp [parserStep, ho2, outcomeOfExcept])
          rw [hv]
          refine ⟨rfl, fun e2 he2 => ?_⟩
          have h' : outcomeOfExcept (pb2.outcome (Except.error e0)) = Outcome.err e2 := by
            rw [hrp2] at he2
            exact he2
          rw [ho2] at h'
          have h'' : Outcome.err (α := JwtToken) e2x = Outcome.err e2 := h'
          injection h'' with h''
          subst h''
          rfl
    have hcount2 : parseCount (tv.validate pb1 pb2 st).2.2 = 2 := by
      rw [huni.1, parseCount_append]
      simp [parseCount, hptr1, hptr2]
    refine ⟨by omega, ?_, ?_, ?_, ?_⟩
    · constructor
      · intro _
        exact ⟨e1, by rw [hfirst], hflag1⟩
      · intro _
        exact hcount2
    · intro e he hfl
      have he' : Outcome.err (α := JwtToken) e1 = Outcome.err e := by
        rw [hfirst] at he
        exact he
      injection he' with he'
      subst he'
      rw [hflag1] at hfl
      cases hfl
    · intro e he
      have hr1 : r1 = Outcome.err e := he
      subst hr1
      obtain ⟨e', hoe, hfle⟩ := hwrap e
      have hX2 : outcomeOfExcept (pb1.outcome (Except.error e)) = Outcome.err e1 := hX
      rw [hoe] at hX2
      have hXe : Outcome.err (α := JwtToken) e' = Outcome.err e1 := hX2
      injection hXe with hXe
      subst hXe
      rw [hflag1] at hfle
      cases hfle
    · intro e he hfl
      refine ⟨s0, tr2c, hs0, ?_, hshape, hnoclaim, hflush, hptr2, ?_⟩
      · rw [hfirst]
        exact huni.1
      · intro e2 he2
        refine huni.2 e2 ?_
        rw [hfirst] at he2
        exact he2
  · have hnosig1 : ∀ e, (runParse pb1 tv.getSigningKey st).1 = Outcome.err e →
        sigInvalidErr e = false := by
      intro e he
      cases hb : sigInvalidErr e with
      | false => rfl
      | true => exact absurd ⟨e, he, hb⟩ hsig
    have hnr := validate_no_retry tv pb1 pb2 st _ st1 tr1 hrp1 hptr1
      (fun e hXe => hnosig1 e (by rw [hrp1]; exact hXe))
    refine ⟨by omega, ?_, ?_, ?_, ?_⟩
    · constructor
      · intro h2
        rw [hnr.1] at h2
        exact absurd h2 (by decide)
      · rintro ⟨e, he, hfl⟩
        rw [hnosig1 e he] at hfl
        cases hfl
    · intro e he hfl
      have hv := hnr.2 e (by rw [hrp1] at he; exact he)
      constructor
      · rw [hv, hrp1]
      · exact hnr.1
    · intro e he
      exact hnr.1
    · intro e he hfl
      rw [hnosig1 e he] at hfl
      cases hfl

/-- Claim C1 witness: a signature-invalid first attempt followed by an
accepted renewal attempt stays within two parse attempts. -/
theorem validate_retry_discipline_witness :
    parseCount (tvW.validate pbSigFail pbRenewOk ()).2.2 ≤ 2 :=
  (validate_retry_discipline tvW pbSigFail pbRenewOk ()
    (fun e => ⟨GoError.jwtValidation 2 (some e), rfl, rfl⟩)
    ⟨"https://idp.example", rfl⟩).1

/-- Claim C10: the renewal callback's unchecked string cast of the issuer claim
cannot panic whenever that claim is a string; the panic branch is unreachable
through `validate` because the retry is triggered only by a signature-invalid
report, which presupposes the first-pass callback — and hence issuer
validation — succeeded on the same token's claims; and a non-string `kid`
header value is treated the same as an absent one, yielding the empty string
key identifier. -/
theorem renewal_cast_safety {σ : Type} (tv : idTokenValidator σ) (st : σ) (jt : JwtToken)
    (pb1 pb2 : ParserBehavior)
    (hwrap : ∀ e, ∃ e', pb1.outcome (Except.error e) = Except.error e' ∧
        sigInvalidErr e' = false)
    (hclaims : pb2.tok.claims = pb1.tok.claims) :
    (∀ iss, mapGet jt.claims issuerClaimName = some (GoValue.str iss) →
        ∀ m, (tv.renewAndGetSigningKey st jt).1 ≠ Outcome.panicked m) ∧
    (∀ m, (tv.getSigningKey st jt).1 ≠ Outcome.panicked m) ∧
    (∀ m, (tv.validate pb1 pb2 st).1 ≠ Outcome.panicked m) ∧
    (∀ t : JwtToken,
        (mapGet t.header keyIDJwtHeaderName = none ∨
          ∃ v, mapGet t.header keyIDJwtHeaderName = some v ∧ ∀ s, v ≠ GoValue.str s) →
        getTokenKid t = "") := by
  refine ⟨?_, ?_, ?_, ?_⟩
  · intro iss hissx
    exact (renewAndGetSigningKey_spec tv st jt iss hissx).2.1
  · exact (getSigningKey_trace_facts tv st jt).2.2.1
  · intro m
    rcases hcb : tv.getSigningKey st pb1.tok with ⟨r1, st1, tr1⟩
    have hrp1 := runParse_spec pb1 tv.getSigningKey st r1 st1 tr1 hcb
    have hvfr := validate_first_result tv pb1 pb2 st _ _ _ hrp1
    cases r1 with
    | panicked mm =>
      have hmm : (tv.getSigningKey st pb1.tok).1 = Outcome.panicked mm := by rw [hcb]
      exact absurd hmm ((getSigningKey_trace_facts tv st pb1.tok).2.2.1 mm)
    | ok k =>
      cases ho : pb1.outcome (Except.ok k) with
      | ok jt2 =>
        have hv := hvfr.1 jt2 (by simp [parserStep, ho, outcomeOfExcept])
        rw [hv]
        intro h
        cases h
      | error e =>
        cases hflag : sigInvalidErr e with
        | false =>
          have hv := hvfr.2.2.1 e (by simp [parserStep, ho, outcomeOfExcept]) hflag
          rw [hv]
          intro h
          cases h
        | true =>
          have hok : (tv.getSigningKey st pb1.tok).1 = Outcome.ok k := by rw [hcb]
          obtain ⟨provs, p, -, hvi⟩ := (getSigningKey_trace_facts tv st pb1.tok).2.2.2 k hok
          obtain ⟨s, hgi, -⟩ := validateIssuer_ok_claim pb1.tok provs p hvi
          have hgi2 : mapGet pb2.tok.claims issuerClaimName = some (GoValue.str s) := by
            rw [hclaims]
            exact hgi
          rcases hcb2 : tv.renewAndGetSigningKey st1 pb2.tok with ⟨r2, st2, tr2⟩
          have hrp2 := runParse_spec pb2 tv.renewAndGetSigningKey st1 r2 st2 tr2 hcb2
          have hretry := hvfr.2.2.2 e (by simp [parserStep, ho, outcomeOfExcept]) hflag
            _ _ _ hrp2
          cases r2 with
          | panicked mm =>
            have hmm : (tv.renewAndGetSigningKey st1 pb2.tok).1 = Outcome.panicked mm := by
              rw [hcb2]
            exact absurd hmm ((renewAndGetSigningKey_spec tv st1 pb2.tok s hgi2).2.1 mm)
          | ok k2 =>
            cases ho2 : pb2.outcome (Except.ok k2) with
            | ok jt2 =>
              have hv := hretry.1 jt2 (by simp [parserStep, ho2, outcomeOfExcept])
              rw [hv]
              intro h
              cases h
            | error e2 =>
              have hv := hretry.2.2 e2 (by simp [parserStep, ho2, outcomeOfExcept])
              rw [hv]
              intro h
              cases h
          | err e0 =>
            cases ho2 : pb2.outcome (Except.error e0) with
            | ok jt2 =>
              have hv := hretry.1 jt2 (by simp [parserStep, ho2, outcomeOfExcept])
              rw [hv]
              intro h
              cases h
            | error e2 =>
              have hv := hretry.2.2 e2 (by simp [parserStep, ho2, outcomeOfExcept])
              rw [hv]
              intro h
              cases h
    | err e0 =>
      obtain ⟨e', ho, hfl⟩ := hwrap e0
      have hv := hvfr.2.2.1 e' (by simp [parserStep, ho, outcomeOfExcept]) hfl
      rw [hv]
      intro h
      cases h
  · intro t ht
    cases hm : mapGet t.header keyIDJwtHeaderName with
    | none => simp [getTokenKid, hm]
    | some v =>
      rcases ht with hnone | ⟨v2, hv2, hns⟩
      · rw [hm] at hnone
        cases hnone
      · rw [hm] at hv2
        injection hv2 with hv2
        subst hv2
        cases v with
        | str s => exact absurd rfl (hns s)
        | arr l => simp [getTokenKid, hm]
        | other a b => simp [getTokenKid, hm]

/-- Claim C10 witness: on the scenario validator and tokens, `validate` does
not panic. -/
theorem renewal_cast_safety_witness :
    (tvW.validate pbSigFail pbRenewOk ()).1 ≠ Outcome.panicked "interface conversion" :=
  (renewal_cast_safety tvW () tokW pbSigFail pbRenewOk
    (fun e => ⟨GoError.jwtValidation 2 (some e), rfl, rfl⟩) rfl).2.2.1
    "interface conversion"

/-- Claim C4 witness: the missing-claim case concretely yields
`InvalidIssuerType`. -/
theorem validateIssuer_error_code_spec_witness :
    exceptErrCode (validateIssuer { claims := [], header := [] } []) =
      some ValidationErrorCode.invalidIssuerType :=
  (validateIssuer_error_code_spec { claims := [], header := [] } []).1.mpr
    (fun s h => by cases h)

/-- Claim C6 witness: a scalar string claim is normalised to a one-element
sequence. -/
theorem validateAudiences_error_spec_witness :
    getAudiences { claims := [(audiencesClaimName, GoValue.str "client-1")], header := [] } =
      Except.ok [GoValue.str "client-1"] :=
  (validateAudiences_error_spec
      { claims := [(audiencesClaimName, GoValue.str "client-1")], header := [] } provW).1
    "client-1" rfl

/-- Claim C7 witness: a present non-empty subject is returned unchanged. -/
theorem validateSubject_spec_witness :
    validateSubject { claims := [(subjectClaimName, GoValue.str "user-42")], header := [] } =
      Except.ok "user-42" :=
  ((validateSubject_spec
      { claims := [(subjectClaimName, GoValue.str "user-42")], header := [] }).2.2
    "user-42").mpr ⟨rfl, by decide⟩
